import Mathlib

/-!
# mapper_c_utils: weighted 3-D binning, element-wise adds and the linear map

A shallow embedding of `src/mapper_c_utils/mapper_c_utils.c`.

Modelling conventions.

* `float` values are exact rationals (`ℚ`): rounding is not modelled.  A
  quotient by zero is an infinity or a NaN, which is no rational:
  `vector_divide` returns `none` for it.
* `int32_t` values are integers kept in `[-2^31, 2^31)`; `int` arithmetic wraps
  modulo `2^32` (`wrap_int32`), `uint32_t` arithmetic is modulo `2^32`, and the
  conversion of an `int` to `uint64_t` is modulo `2^64` (`to_uint64`).
* The conversion `(int)f` of a float truncates toward zero.  C leaves it
  undefined when the truncated value is not representable in `int`; the model
  reports that as `Fault.conversion`.
* Buffers are lists.  An access outside a buffer is undefined in C; the model
  reports it as `Fault.outOfBounds`.
* `weighted_bin_3d` and `linear_map` keep the number of vectors and the loop
  counter in an `int`: the length of the array is converted to `int`
  (`number_of_vectors`) and the address of a vector is the `int` product of
  the counter with 3.  The two adds count in `uint64_t`, which no buffer
  exceeds.
-/

namespace MapperCUtils

/-- The struct `vector_float32` (lines 7-12). -/
structure vector_float32 where
  x : ℚ
  y : ℚ
  z : ℚ
deriving DecidableEq

/-- The struct `vector_int32` (lines 14-19). -/
structure vector_int32 where
  x : Int
  y : Int
  z : Int
deriving DecidableEq

/-- Undefined behaviour that the embedding makes explicit. -/
inductive Fault where
  | conversion
  | outOfBounds
deriving DecidableEq

/-- Divides `vec_1` by `vec_2` component by component (lines 21-27); the result
is the new value of `vec_1`.  It is `none` when a divisor is zero: the quotient
is then infinite or NaN. -/
def vector_divide (vec_1 vec_2 : vector_float32) : Option vector_float32 :=
  if vec_2.x = 0 ∨ vec_2.y = 0 ∨ vec_2.z = 0 then none
  else some ⟨vec_1.x / vec_2.x, vec_1.y / vec_2.y, vec_1.z / vec_2.z⟩

/-- Subtracts `vec_2` from `vec_1` (lines 29-35); the result is the new value
of `vec_1`. -/
def vector_subtract (vec_1 vec_2 : vector_float32) : vector_float32 :=
  ⟨vec_1.x - vec_2.x, vec_1.y - vec_2.y, vec_1.z - vec_2.z⟩

/-- Two-complement wrap-around of an integer into `[-2^31, 2^31)`. -/
def wrap_int32 (v : Int) : Int := (v + 2 ^ 31) % 2 ^ 32 - 2 ^ 31

/-- Conversion of an `int` to `uint64_t`: the value modulo `2^64`. -/
def to_uint64 (v : Int) : Nat := (v % 2 ^ 64).toNat

/-- The function `offset` (lines 53-58): the products and sums are `int`
operations, evaluated left to right, and the `int` result is converted to
`uint64_t` on return. -/
def offset (index shape : vector_int32) : Nat :=
  to_uint64
    (wrap_int32
      (wrap_int32
          (wrap_int32 (wrap_int32 (index.x * shape.z) * shape.y)
            + wrap_int32 (index.y * shape.z))
        + index.z))

/-- Truncation of a rational toward zero. -/
def trunc (q : ℚ) : Int := if 0 ≤ q then ⌊q⌋ else -⌊-q⌋

/-- The conversion `(int)f` (lines 127-129): truncation toward zero, undefined
(`none`) when the truncated value does not fit in 32 bits. -/
def float_to_int (q : ℚ) : Option Int :=
  if -2 ^ 31 ≤ trunc q ∧ trunc q < 2 ^ 31 then some (trunc q) else none

/-- The buffers `weighted_bin_3d` receives (lines 97-105). -/
structure Memory where
  coords : List vector_float32
  weights : List ℚ
  start : vector_float32
  stop : vector_float32
  step : vector_float32
  shape : vector_int32
  out : List ℚ
  count : List Nat
deriving DecidableEq

/-- One iteration of the loop of `weighted_bin_3d` (lines 113-144), for the
loop counter `vector_num`. -/
def weighted_bin_3d_body (vector_num : Nat) (m : Memory) : Except Fault Memory :=
  -- lines 113-114: `current_coord` points at the three floats of the point
  match m.coords[vector_num]? with
  | none => .error .outOfBounds
  | some current_coord =>
    -- lines 116-122: the lower test, on the raw coordinates
    if current_coord.x < m.start.x then .ok m
    else if current_coord.y < m.start.y then .ok m
    else if current_coord.z < m.start.z then .ok m
    else
      -- lines 124-126: both helpers write through `current_coord`
      match vector_divide (vector_subtract current_coord m.start) m.step with
      -- an infinite or NaN quotient, whose conversion at lines 127-129 is undefined
      | none => .error .conversion
      | some local_coord =>
        let m1 := { m with coords := m.coords.set vector_num local_coord }
        -- lines 127-129: `indices`
        match float_to_int local_coord.x, float_to_int local_coord.y,
            float_to_int local_coord.z with
        | some ix, some iy, some iz =>
          let indices : vector_int32 := ⟨ix, iy, iz⟩
          -- lines 131-139: the upper test, on the converted indices
          if indices.x ≥ m1.shape.x then .ok m1
          else if indices.y ≥ m1.shape.y then .ok m1
          else if indices.z ≥ m1.shape.z then .ok m1
          else
            -- lines 141-144: the accumulation
            let final_arr_idx := offset indices m1.shape
            match m1.out[final_arr_idx]?, m1.weights[vector_num]? with
            | some o, some w =>
              let m2 := { m1 with out := m1.out.set final_arr_idx (o + w) }
              match m2.count[final_arr_idx]? with
              | some c =>
                .ok { m2 with count := m2.count.set final_arr_idx ((c + 1) % 2 ^ 32) }
              | none => .error .outOfBounds
            | _, _ => .error .outOfBounds
        | _, _, _ => .error .conversion

/-- Lines 108 and 247: the first dimension of the array, an `npy_intp`,
converted to `int`. -/
def number_of_vectors (length : Nat) : Int := wrap_int32 length

/-- The loop of `weighted_bin_3d` (line 111): `n` iterations remain, the
counter is `vector_num`.  The point is addressed as
`coords_pointer + vector_num * 3` (line 114), an `int` product: when it wraps,
`current_coord` does not point at the point `vector_num`.  Counting up from 0
the first product that wraps is negative, an address before the buffer, and
the run ends there; a wrapped product that is not negative is never reached
and is given the same result. -/
def weighted_bin_3d_loop : Nat → Nat → Memory → Except Fault Memory
  | 0, _, m => .ok m
  | n + 1, vector_num, m =>
    if wrap_int32 ((vector_num : Int) * 3) = (vector_num : Int) * 3 then
      match weighted_bin_3d_body vector_num m with
      | .ok m1 => weighted_bin_3d_loop n (vector_num + 1) m1
      | .error e => .error e
    else .error .outOfBounds

/-- The function `weighted_bin_3d` (lines 107-145) on the buffers it was
handed: the loop runs while `vector_num < number_of_vectors`, not at all when
`number_of_vectors` is not positive. -/
def weighted_bin_3d (m : Memory) : Except Fault Memory :=
  weighted_bin_3d_loop (number_of_vectors m.coords.length).toNat 0 m

/-- The loop of `simple_float_add` (lines 183-184). -/
def simple_float_add_loop : Nat → Nat → List ℚ → List ℚ → Except Fault (List ℚ)
  | 0, _, out, _ => .ok out
  | n + 1, i, out, to_add =>
    match out[i]?, to_add[i]? with
    | some a, some b => simple_float_add_loop n (i + 1) (out.set i (a + b)) to_add
    | _, _ => .error .outOfBounds

/-- The function `simple_float_add` (lines 161-191): `size` is the size of
`out`; the result is the new content of `out`. -/
def simple_float_add (out to_add : List ℚ) : Except Fault (List ℚ) :=
  simple_float_add_loop out.length 0 out to_add

/-- The loop of `simple_uint32_add` (lines 215-216). -/
def simple_uint32_add_loop : Nat → Nat → List Nat → List Nat → Except Fault (List Nat)
  | 0, _, out, _ => .ok out
  | n + 1, i, out, to_add =>
    match out[i]?, to_add[i]? with
    | some a, some b =>
      simple_uint32_add_loop n (i + 1) (out.set i ((a + b) % 2 ^ 32)) to_add
    | _, _ => .error .outOfBounds

/-- The function `simple_uint32_add` (lines 193-224): `size` is the size of
`out`; the result is the new content of `out`. -/
def simple_uint32_add (out to_add : List Nat) : Except Fault (List Nat) :=
  simple_uint32_add_loop out.length 0 out to_add

/-- The loop of `linear_map` (lines 250-264): the three components are copied
before any of them is overwritten.  The vector is addressed as
`vector_array_pointer + i * 3` (line 253), an `int` product, treated as in
`weighted_bin_3d_loop`. -/
def linear_map_loop : Nat → Nat → List vector_float32 → (Fin 9 → ℚ) →
    Except Fault (List vector_float32)
  | 0, _, vector_array, _ => .ok vector_array
  | n + 1, i, vector_array, matrix =>
    if wrap_int32 ((i : Int) * 3) = (i : Int) * 3 then
      match vector_array[i]? with
      | none => .error .outOfBounds
      | some current_vector =>
        let x := current_vector.x
        let y := current_vector.y
        let z := current_vector.z
        linear_map_loop n (i + 1)
          (vector_array.set i
            ⟨matrix 0 * x + matrix 1 * y + matrix 2 * z,
             matrix 3 * x + matrix 4 * y + matrix 5 * z,
             matrix 6 * x + matrix 7 * y + matrix 8 * z⟩)
          matrix
    else .error .outOfBounds

/-- The function `linear_map` (lines 226-272): `matrix` holds nine floats in
row-major order; the result is the new content of the vector array.  The loop
runs while `i < number_of_vectors` (line 247). -/
def linear_map (vector_array : List vector_float32) (matrix : Fin 9 → ℚ) :
    Except Fault (List vector_float32) :=
  linear_map_loop (number_of_vectors vector_array.length).toNat 0 vector_array matrix


/-! ## What one iteration does, as a function of the point alone

The three outcomes of lines 116-142 depend on the point and on the geometry
only, not on the grids: the point is skipped, the point reaches the
accumulation at some flat offset, or a conversion is undefined.  In the first
two cases the point is left holding `new_coord`. -/

/-- The outcome of lines 116-142 for one point. -/
inductive Action where
  | skip (new_coord : vector_float32)
  | add (new_coord : vector_float32) (final_arr_idx : Nat)
  | fault (e : Fault)

/-- Lines 116-142 for the point `current_coord`. -/
def point_action (start step : vector_float32) (shape : vector_int32)
    (current_coord : vector_float32) : Action :=
  if current_coord.x < start.x then .skip current_coord
  else if current_coord.y < start.y then .skip current_coord
  else if current_coord.z < start.z then .skip current_coord
  else
    match vector_divide (vector_subtract current_coord start) step with
    | none => .fault .conversion
    | some local_coord =>
      match float_to_int local_coord.x, float_to_int local_coord.y,
          float_to_int local_coord.z with
      | some ix, some iy, some iz =>
        if ix ≥ shape.x then .skip local_coord
        else if iy ≥ shape.y then .skip local_coord
        else if iz ≥ shape.z then .skip local_coord
        else .add local_coord (offset ⟨ix, iy, iz⟩ shape)
      | _, _, _ => .fault .conversion

/-- Lines 143-144 on the two grids, for the weight read at line 143 (`none`
when the weight array is too short). -/
def accumulate (final_arr_idx : Nat) (weight : Option ℚ) (g : List ℚ × List Nat) :
    Except Fault (List ℚ × List Nat) :=
  match g.1[final_arr_idx]?, weight with
  | some o, some w =>
    match g.2[final_arr_idx]? with
    | some c => .ok (g.1.set final_arr_idx (o + w), g.2.set final_arr_idx ((c + 1) % 2 ^ 32))
    | none => .error .outOfBounds
  | _, _ => .error .outOfBounds

/-- The effect of an outcome on the two grids. -/
def Action.run (a : Action) (weight : Option ℚ) (g : List ℚ × List Nat) :
    Except Fault (List ℚ × List Nat) :=
  match a with
  | .skip _ => .ok g
  | .add _ final_arr_idx => accumulate final_arr_idx weight g
  | .fault e => .error e

/-- The value an outcome leaves in the point (the old one on a fault, where
it is not observed). -/
def Action.coord (a : Action) (old : vector_float32) : vector_float32 :=
  match a with
  | .skip c => c
  | .add c _ => c
  | .fault _ => old

/-- The lower test (lines 117-122) rejects the point. -/
def below_start (start current_coord : vector_float32) : Prop :=
  current_coord.x < start.x ∨ current_coord.y < start.y ∨ current_coord.z < start.z

instance (start c : vector_float32) : Decidable (below_start start c) := by
  unfold below_start
  infer_instance

/-- The upper test (lines 134-139) rejects the index. -/
def over_shape (shape indices : vector_int32) : Prop :=
  indices.x ≥ shape.x ∨ indices.y ≥ shape.y ∨ indices.z ≥ shape.z

instance (shape indices : vector_int32) : Decidable (over_shape shape indices) := by
  unfold over_shape
  infer_instance

/-- The value of `indices` at line 129 for a point that passed the lower test;
`none` when a conversion is undefined. -/
def indices_at (start step current_coord : vector_float32) : Option vector_int32 :=
  match vector_divide (vector_subtract current_coord start) step with
  | none => none
  | some local_coord =>
    match float_to_int local_coord.x, float_to_int local_coord.y,
        float_to_int local_coord.z with
    | some ix, some iy, some iz => some ⟨ix, iy, iz⟩
    | _, _, _ => none

/-- The grids of a memory. -/
def Memory.grids (m : Memory) : List ℚ × List Nat := (m.out, m.count)

/-- The points from the loop counter `i` on, each with the weight line 143
would read for it. -/
def pairs_from (weights : List ℚ) : Nat → List vector_float32 →
    List (vector_float32 × Option ℚ)
  | _, [] => []
  | i, c :: cs => (c, weights[i]?) :: pairs_from weights (i + 1) cs

/-- The loop of `weighted_bin_3d` as a traversal of the remaining points: the
new values of the points and the final grids. -/
def run_points (start step : vector_float32) (shape : vector_int32) :
    List (vector_float32 × Option ℚ) → List ℚ × List Nat →
      Except Fault (List vector_float32 × (List ℚ × List Nat))
  | [], g => .ok ([], g)
  | (c, w) :: rest, g =>
    match (point_action start step shape c).run w g with
    | .error e => .error e
    | .ok g1 =>
      match run_points start step shape rest g1 with
      | .error e => .error e
      | .ok r => .ok ((point_action start step shape c).coord c :: r.1, r.2)

/-- The grid of the scenarios of the specification: start `(0,0,0)`, shape
`(2,2,2)` and zeroed grids of eight cells, for a given step, point set and
weight array. -/
def scenario (step : vector_float32) (coords : List vector_float32) (weights : List ℚ) :
    Memory :=
  { coords := coords
    weights := weights
    start := ⟨0, 0, 0⟩
    stop := ⟨2, 2, 2⟩
    step := step
    shape := ⟨2, 2, 2⟩
    out := [0, 0, 0, 0, 0, 0, 0, 0]
    count := [0, 0, 0, 0, 0, 0, 0, 0] }

/-- The value lines 117-126 leave in a point: the point itself when the lower
test rejects it, `(p - start)/step` otherwise (for a nonzero step). -/
def coord_after (start step c : vector_float32) : vector_float32 :=
  if below_start start c then c
  else ⟨(c.x - start.x) / step.x, (c.y - start.y) / step.y, (c.z - start.z) / step.z⟩

/-- The point passes both bounds tests: no coordinate is below the start and
every component of `trunc((p - start)/step)` is below the shape. -/
def in_grid (start step : vector_float32) (shape : vector_int32) (c : vector_float32) :
    Prop :=
  ¬ below_start start c
    ∧ trunc ((c.x - start.x) / step.x) < shape.x
    ∧ trunc ((c.y - start.y) / step.y) < shape.y
    ∧ trunc ((c.z - start.z) / step.z) < shape.z

instance (start step : vector_float32) (shape : vector_int32) (c : vector_float32) :
    Decidable (in_grid start step shape c) := by
  unfold in_grid
  infer_instance

/-- The truncated index of the point fits in an `int` on every axis, unless
the lower test rejects the point. -/
def index_fits (start step c : vector_float32) : Prop :=
  ¬ below_start start c →
    trunc ((c.x - start.x) / step.x) < 2 ^ 31
      ∧ trunc ((c.y - start.y) / step.y) < 2 ^ 31
      ∧ trunc ((c.z - start.z) / step.z) < 2 ^ 31

instance (start step c : vector_float32) : Decidable (index_fits start step c) := by
  unfold index_fits
  infer_instance

/-- The largest number of vectors for which no product of the loop counter
with 3 wraps: `3 * 715827882 < 2^31 ≤ 3 * 715827883`. -/
def max_vectors : Nat := 715827883

/-- The inputs on which `weighted_bin_3d` is shown to complete: positive step,
positive shape, fewer than `2^31` cells, both grids of `shape.x*shape.y*shape.z`
cells, as many weights as points, every truncated index representable in
`int`, and at most `max_vectors` points. -/
def well_formed (m : Memory) : Prop :=
  (0 < m.step.x ∧ 0 < m.step.y ∧ 0 < m.step.z)
    ∧ (0 < m.shape.x ∧ 0 < m.shape.y ∧ 0 < m.shape.z)
    ∧ m.shape.x * m.shape.y * m.shape.z < 2 ^ 31
    ∧ (m.out.length : Int) = m.shape.x * m.shape.y * m.shape.z
    ∧ (m.count.length : Int) = m.shape.x * m.shape.y * m.shape.z
    ∧ m.weights.length = m.coords.length
    ∧ (∀ c ∈ m.coords, index_fits m.start m.step c)
    ∧ m.coords.length ≤ max_vectors

instance (m : Memory) : Decidable (well_formed m) := by
  unfold well_formed
  infer_instance

/-- The effect of one point and its weight on the grids, `none` standing for
undefined behaviour, now or earlier. -/
def grid_step (start step : vector_float32) (shape : vector_int32)
    (g : Option (List ℚ × List Nat)) (p : vector_float32 × ℚ) :
    Option (List ℚ × List Nat) :=
  g.bind (fun g => ((point_action start step shape p.1).run (some p.2) g).toOption)

/-- A run of `2^32 - 1` copies of the point `(-1, 0, 0)` with weight `1`; on
the scenario grid the lower test rejects the point. -/
def rejected_tail : List (vector_float32 × ℚ) :=
  List.replicate 4294967295 (⟨-1, 0, 0⟩, 1)

/-- An array of `2^31` copies of the vector `(1, 0, 0)`. -/
def unit_vectors : List vector_float32 := List.replicate 2147483648 ⟨1, 0, 0⟩

/-- The nine floats of `matrix`, read in row-major order as a 3×3 matrix. -/
def to_matrix (matrix : Fin 9 → ℚ) : Matrix (Fin 3) (Fin 3) ℚ :=
  Matrix.of ![![matrix 0, matrix 1, matrix 2], ![matrix 3, matrix 4, matrix 5],
    ![matrix 6, matrix 7, matrix 8]]

/-- The three components of a vector as a column. -/
def to_vec (v : vector_float32) : Fin 3 → ℚ := ![v.x, v.y, v.z]

/-- The vector with the three components of a column. -/
def of_vec (u : Fin 3 → ℚ) : vector_float32 := ⟨u 0, u 1, u 2⟩

/-- The product `M·v` of the matrix held by `matrix` with the vector `v`. -/
def mat_vec (matrix : Fin 9 → ℚ) (v : vector_float32) : vector_float32 :=
  of_vec ((to_matrix matrix).mulVec (to_vec v))

/-- The identity matrix in row-major order. -/
def identity_matrix : Fin 9 → ℚ := ![1, 0, 0, 0, 1, 0, 0, 0, 1]

/-! ## Machine arithmetic -/

theorem wrap_int32_of_fits (v : Int) (h1 : -2 ^ 31 ≤ v) (h2 : v < 2 ^ 31) :
    wrap_int32 v = v := by
  unfold wrap_int32
  omega

theorem to_uint64_of_fits (v : Int) (h1 : 0 ≤ v) (h2 : v < 2 ^ 64) :
    (to_uint64 v : Int) = v := by
  unfold to_uint64
  omega

theorem counter_product_fits (v : Nat) (h : v < max_vectors) :
    wrap_int32 ((v : Int) * 3) = (v : Int) * 3 := by
  unfold max_vectors at h
  exact wrap_int32_of_fits _ (by omega) (by omega)

theorem number_of_vectors_of_fits (n : Nat) (h : n ≤ max_vectors) :
    (number_of_vectors n).toNat = n := by
  unfold max_vectors at h
  unfold number_of_vectors
  rw [wrap_int32_of_fits _ (by omega) (by omega)]
  exact Int.toNat_ofNat n

/-- The mixed-radix value `(a * n + b) * k + c` determines its three digits. -/
theorem mixed_radix_inj (a b c a1 b1 c1 n k : Int)
    (hb : 0 ≤ b) (hbn : b < n) (hc : 0 ≤ c) (hck : c < k)
    (hb1 : 0 ≤ b1) (hbn1 : b1 < n) (hc1 : 0 ≤ c1) (hck1 : c1 < k)
    (h : (a * n + b) * k + c = (a1 * n + b1) * k + c1) :
    a = a1 ∧ b = b1 ∧ c = c1 := by
  have digit : ∀ (u v u1 v1 r : Int), 0 ≤ v → v < r → 0 ≤ v1 → v1 < r →
      u * r + v = u1 * r + v1 → u = u1 ∧ v = v1 := by
    intro u v u1 v1 r hv hvr hv1 hvr1 e
    have hu : u = u1 := by
      rcases lt_trichotomy u u1 with hlt | heq | hgt
      · exfalso
        have : (u + 1) * r ≤ u1 * r :=
          mul_le_mul_of_nonneg_right (by omega) (by omega)
        nlinarith
      · exact heq
      · exfalso
        have : (u1 + 1) * r ≤ u * r :=
          mul_le_mul_of_nonneg_right (by omega) (by omega)
        nlinarith
    subst hu
    exact ⟨rfl, by linarith⟩
  obtain ⟨h1, h2⟩ := digit _ _ _ _ _ hc hck hc1 hck1 h
  obtain ⟨h3, h4⟩ := digit _ _ _ _ _ hb hbn hb1 hbn1 h1
  exact ⟨h3, h4, h2⟩

/-- Without overflow `offset` is the row-major flat index: when the grid has
fewer than `2^31` cells and the index is inside the grid, no intermediate
product or sum wraps. -/
theorem offset_of_small_grid (index shape : vector_int32)
    (hprod : shape.x * shape.y * shape.z < 2 ^ 31)
    (hx0 : 0 ≤ index.x) (hx : index.x < shape.x)
    (hy0 : 0 ≤ index.y) (hy : index.y < shape.y)
    (hz0 : 0 ≤ index.z) (hz : index.z < shape.z) :
    (offset index shape : Int)
        = index.x * shape.z * shape.y + index.y * shape.z + index.z
      ∧ (offset index shape : Int) < shape.x * shape.y * shape.z := by
  obtain ⟨ix, iy, iz⟩ := index
  obtain ⟨sx, sy, sz⟩ := shape
  simp only at hprod hx0 hx hy0 hy hz0 hz ⊢
  have hsz : 0 < sz := by omega
  have hsy : 0 < sy := by omega
  have hsx : 0 < sx := by omega
  have a0 : 0 ≤ ix * sz := mul_nonneg hx0 hsz.le
  have b0 : 0 ≤ ix * sz * sy := mul_nonneg a0 hsy.le
  have c0 : 0 ≤ iy * sz := mul_nonneg hy0 hsz.le
  have a1 : ix * sz ≤ ix * sz * sy := by nlinarith
  have c1 : iy * sz + sz ≤ sy * sz := by nlinarith
  have b1 : ix * sz * sy + sy * sz ≤ sx * sy * sz := by nlinarith
  unfold offset
  simp only
  rw [wrap_int32_of_fits (ix * sz) (by omega) (by omega)]
  rw [wrap_int32_of_fits (ix * sz * sy) (by omega) (by omega)]
  rw [wrap_int32_of_fits (iy * sz) (by omega) (by omega)]
  rw [wrap_int32_of_fits (ix * sz * sy + iy * sz) (by omega) (by omega)]
  rw [wrap_int32_of_fits (ix * sz * sy + iy * sz + iz) (by omega) (by omega)]
  rw [to_uint64_of_fits _ (by omega) (by omega)]
  exact ⟨rfl, by omega⟩

/-! ## The flat offset -/

/-- Claim C4, evaluated on the code: for the shape `(2048, 2048, 2048)` and the
index `(512, 0, 0)`, which lies inside the grid, the row-major expression is
`2^31` over the integers, while `offset` returns `2^64 - 2^31`: the `int`
product wraps before the conversion to `uint64_t`. -/
theorem offset_wraps_on_large_shape :
    (0 : Int) < 2048 ∧ (0 : Int) ≤ 512 ∧ (512 : Int) < 2048
      ∧ (512 * 2048 * 2048 + 0 * 2048 + 0 : Int) = 2147483648
      ∧ offset ⟨512, 0, 0⟩ ⟨2048, 2048, 2048⟩ = 18446744071562067968 := by
  refine ⟨by decide, by decide, by decide, by decide, ?_⟩
  decide

/-- Claim C10: on a grid with positive shape and fewer than `2^31` cells,
`offset` maps every index inside the grid below the number of cells, and two
indices inside the grid with the same offset are equal. -/
theorem offset_injective_into_range (shape index index1 : vector_int32)
    (_hsx : 0 < shape.x) (_hsy : 0 < shape.y) (_hsz : 0 < shape.z)
    (hprod : shape.x * shape.y * shape.z < 2 ^ 31)
    (hx0 : 0 ≤ index.x) (hx : index.x < shape.x)
    (hy0 : 0 ≤ index.y) (hy : index.y < shape.y)
    (hz0 : 0 ≤ index.z) (hz : index.z < shape.z)
    (kx0 : 0 ≤ index1.x) (kx : index1.x < shape.x)
    (ky0 : 0 ≤ index1.y) (ky : index1.y < shape.y)
    (kz0 : 0 ≤ index1.z) (kz : index1.z < shape.z) :
    (offset index shape : Int) < shape.x * shape.y * shape.z
      ∧ (offset index shape = offset index1 shape → index = index1) := by
  have e := offset_of_small_grid index shape hprod hx0 hx hy0 hy hz0 hz
  have e1 := offset_of_small_grid index1 shape hprod kx0 kx ky0 ky kz0 kz
  refine ⟨e.2, fun h => ?_⟩
  have hInt : (offset index shape : Int) = (offset index1 shape : Int) := by rw [h]
  rw [e.1, e1.1] at hInt
  have key := mixed_radix_inj index.x index.y index.z index1.x index1.y index1.z
    shape.y shape.z hy0 hy hz0 hz ky0 ky kz0 kz (by linarith)
  obtain ⟨ix, iy, iz⟩ := index
  obtain ⟨jx, jy, jz⟩ := index1
  simp only at key
  simp only [vector_int32.mk.injEq]
  exact key

/-- Claim C10 at the shape `(2, 3, 4)` and the indices `(1, 2, 3)` and
`(1, 0, 3)`. -/
theorem offset_injective_into_range_witness :
    (offset ⟨1, 2, 3⟩ ⟨2, 3, 4⟩ : Int) < 2 * 3 * 4
      ∧ (offset ⟨1, 2, 3⟩ ⟨2, 3, 4⟩ = offset ⟨1, 0, 3⟩ ⟨2, 3, 4⟩
          → (⟨1, 2, 3⟩ : vector_int32) = ⟨1, 0, 3⟩) :=
  offset_injective_into_range ⟨2, 3, 4⟩ ⟨1, 2, 3⟩ ⟨1, 0, 3⟩
    (by decide) (by decide) (by decide) (by decide)
    (by decide) (by decide) (by decide) (by decide) (by decide) (by decide)
    (by decide) (by decide) (by decide) (by decide) (by decide) (by decide)

/-! ## One iteration of the binning loop -/

theorem set_same {α : Type} (l : List α) (i : Nat) (a : α) (h : l[i]? = some a) :
    l.set i a = l := by
  induction l generalizing i with
  | nil => rfl
  | cons b t ih =>
    cases i with
    | zero =>
      simp only [List.getElem?_cons_zero, Option.some.injEq] at h
      simp [h]
    | succ k =>
      simp only [List.getElem?_cons_succ] at h
      simp [ih k h]

theorem take_succ_set {α : Type} (l : List α) (i : Nat) (a : α) (h : i < l.length) :
    (l.set i a).take (i + 1) = l.take i ++ [a] := by
  induction l generalizing i with
  | nil => simp at h
  | cons b t ih =>
    cases i with
    | zero => simp
    | succ k =>
      simp only [List.length_cons, Nat.add_lt_add_iff_right] at h
      simp [ih k h]

/-- One iteration is the outcome of the point applied to the grids, with the
point overwritten by the value the outcome leaves. -/
theorem weighted_bin_3d_body_eq (i : Nat) (m : Memory) (c : vector_float32)
    (hc : m.coords[i]? = some c) :
    weighted_bin_3d_body i m
      = match (point_action m.start m.step m.shape c).run m.weights[i]? m.grids with
        | .ok g =>
          .ok { m with
                coords := m.coords.set i ((point_action m.start m.step m.shape c).coord c)
                out := g.1
                count := g.2 }
        | .error e => .error e := by
  have hself : m.coords.set i c = m.coords := set_same _ _ _ hc
  unfold weighted_bin_3d_body point_action
  rw [hc]
  simp only
  by_cases h1 : c.x < m.start.x
  · simp [h1, Action.run, Action.coord, hself, Memory.grids]
  by_cases h2 : c.y < m.start.y
  · simp [h1, h2, Action.run, Action.coord, hself, Memory.grids]
  by_cases h3 : c.z < m.start.z
  · simp [h1, h2, h3, Action.run, Action.coord, hself, Memory.grids]
  simp only [h1, h2, h3, if_false]
  cases hd : vector_divide (vector_subtract c m.start) m.step with
  | none => simp [Action.run]
  | some l =>
    simp only
    cases hx : float_to_int l.x with
    | none => simp [Action.run]
    | some ix =>
      cases hy : float_to_int l.y with
      | none => simp [Action.run]
      | some iy =>
        cases hz : float_to_int l.z with
        | none => simp [Action.run]
        | some iz =>
          simp only
          by_cases g1 : ix ≥ m.shape.x
          · simp [g1, Action.run, Action.coord, Memory.grids]
          by_cases g2 : iy ≥ m.shape.y
          · simp [g1, g2, Action.run, Action.coord, Memory.grids]
          by_cases g3 : iz ≥ m.shape.z
          · simp [g1, g2, g3, Action.run, Action.coord, Memory.grids]
          simp only [g1, g2, g3, if_false, Action.run, Action.coord, accumulate,
            Memory.grids]
          cases ho : m.out[offset ⟨ix, iy, iz⟩ m.shape]? with
          | none => simp
          | some o =>
            cases hw : m.weights[i]? with
            | none => simp
            | some w =>
              simp only
              cases hcnt : m.count[offset ⟨ix, iy, iz⟩ m.shape]? with
              | none => simp
              | some cnt => simp

/-! ## The binning loop as a traversal of the points -/

theorem weighted_bin_3d_loop_eq (n : Nat) :
    ∀ (i : Nat) (m : Memory), i + n = m.coords.length → i + n ≤ max_vectors →
      weighted_bin_3d_loop n i m
        = match run_points m.start m.step m.shape
              (pairs_from m.weights i (m.coords.drop i)) m.grids with
          | .ok r => .ok { m with coords := m.coords.take i ++ r.1, out := r.2.1, count := r.2.2 }
          | .error e => .error e := by
  induction n with
  | zero =>
    intro i m h _
    have hi : i = m.coords.length := by omega
    subst hi
    simp [weighted_bin_3d_loop, pairs_from, run_points, Memory.grids]
  | succ n ih =>
    intro i m h hmax
    have hlt : i < m.coords.length := by omega
    have hc : m.coords[i]? = some m.coords[i] := List.getElem?_eq_getElem hlt
    rw [weighted_bin_3d_loop, if_pos (counter_product_fits i (by omega)),
      weighted_bin_3d_body_eq i m _ hc, List.drop_eq_getElem_cons hlt]
    simp only [pairs_from, run_points]
    cases hr : (point_action m.start m.step m.shape m.coords[i]).run m.weights[i]? m.grids with
    | error e => simp
    | ok g1 =>
      simp only
      rw [ih]
      · simp only [Memory.grids]
        rw [List.drop_set_of_lt _ _ (Nat.lt_succ_self i)]
        cases hrest : run_points m.start m.step m.shape
            (pairs_from m.weights (i + 1) (List.drop (i + 1) m.coords)) (g1.1, g1.2) with
        | error e => simp
        | ok r =>
          simp only
          rw [take_succ_set _ _ _ hlt]
          simp
      · simp only [List.length_set]
        omega
      · omega

theorem weighted_bin_3d_eq (m : Memory) (hmax : m.coords.length ≤ max_vectors) :
    weighted_bin_3d m
      = match run_points m.start m.step m.shape (pairs_from m.weights 0 m.coords) m.grids with
        | .ok r => .ok { m with coords := r.1, out := r.2.1, count := r.2.2 }
        | .error e => .error e := by
  unfold weighted_bin_3d
  rw [number_of_vectors_of_fits _ hmax, weighted_bin_3d_loop_eq _ 0 m (by omega) (by omega)]
  simp

/-- A call on a point set that `number_of_vectors` counts as one point is one
iteration. -/
theorem weighted_bin_3d_of_one_point (m : Memory)
    (h : (number_of_vectors m.coords.length).toNat = 1) :
    weighted_bin_3d m = weighted_bin_3d_body 0 m := by
  unfold weighted_bin_3d
  rw [h, weighted_bin_3d_loop, if_pos (by decide)]
  cases weighted_bin_3d_body 0 m <;> simp [weighted_bin_3d_loop]

/-- A call on a point set that `number_of_vectors` counts as two points is two
iterations. -/
theorem weighted_bin_3d_of_two_points (m : Memory)
    (h : (number_of_vectors m.coords.length).toNat = 2) :
    weighted_bin_3d m
      = match weighted_bin_3d_body 0 m with
        | .ok m1 => weighted_bin_3d_body 1 m1
        | .error e => .error e := by
  unfold weighted_bin_3d
  rw [h, weighted_bin_3d_loop, if_pos (by decide)]
  cases weighted_bin_3d_body 0 m with
  | error e => rfl
  | ok m1 =>
    simp only
    rw [weighted_bin_3d_loop, if_pos (by decide)]
    cases weighted_bin_3d_body 1 m1 <;> simp [weighted_bin_3d_loop]

/-! ## The two bounds tests -/

theorem trunc_nonneg (q : ℚ) (h : 0 ≤ q) : 0 ≤ trunc q := by
  unfold trunc
  rw [if_pos h]
  exact Int.floor_nonneg.mpr h

theorem float_to_int_of_fits (q : ℚ) (h1 : -2 ^ 31 ≤ trunc q) (h2 : trunc q < 2 ^ 31) :
    float_to_int q = some (trunc q) := by
  unfold float_to_int
  rw [if_pos ⟨h1, h2⟩]

theorem float_to_int_eq_some (q : ℚ) (t : Int) (h : float_to_int q = some t) :
    t = trunc q ∧ -2 ^ 31 ≤ t ∧ t < 2 ^ 31 := by
  unfold float_to_int at h
  split at h
  · rename_i hr
    simp only [Option.some.injEq] at h
    subst h
    exact ⟨rfl, hr.1, hr.2⟩
  · simp at h

/-- A point rejected by the lower test is skipped, untouched. -/
theorem point_action_of_below_start (start step c : vector_float32) (shape : vector_int32)
    (h : below_start start c) : point_action start step shape c = .skip c := by
  unfold point_action
  rcases h with h | h | h
  · simp [h]
  · by_cases h1 : c.x < start.x <;> simp [h1, h]
  · by_cases h1 : c.x < start.x <;> by_cases h2 : c.y < start.y <;> simp [h1, h2, h]

/-- A point that passes the lower test and whose conversions are defined is
skipped when the upper test rejects its index, and reaches the accumulation at
the offset of its index otherwise. -/
theorem point_action_of_indices (start step c : vector_float32) (shape idx : vector_int32)
    (hlow : ¬ below_start start c) (hidx : indices_at start step c = some idx) :
    ∃ l, vector_divide (vector_subtract c start) step = some l
      ∧ point_action start step shape c
          = if over_shape shape idx then .skip l else .add l (offset idx shape) := by
  unfold below_start at hlow
  push_neg at hlow
  obtain ⟨l1, l2, l3⟩ := hlow
  unfold indices_at at hidx
  unfold point_action
  simp only [not_lt.mpr l1, not_lt.mpr l2, not_lt.mpr l3, if_false]
  cases hd : vector_divide (vector_subtract c start) step with
  | none => simp [hd] at hidx
  | some l =>
    refine ⟨l, rfl, ?_⟩
    simp only [hd] at hidx
    cases hx : float_to_int l.x with
    | none => simp [hx] at hidx
    | some ix =>
      cases hy : float_to_int l.y with
      | none => simp [hx, hy] at hidx
      | some iy =>
        cases hz : float_to_int l.z with
        | none => simp [hx, hy, hz] at hidx
        | some iz =>
          simp only [hx, hy, hz, Option.some.injEq] at hidx
          subst hidx
          simp only [over_shape, hx, hy, hz]
          by_cases g1 : ix ≥ shape.x
          · simp [g1]
          by_cases g2 : iy ≥ shape.y
          · simp [g1, g2]
          by_cases g3 : iz ≥ shape.z
          · simp [g1, g2, g3]
          simp [g1, g2, g3]

/-- With a positive step, a point that passes the lower test and whose
truncated index is below the shape on every axis has a defined, non-negative
index and reaches the accumulation at the offset of that index. -/
theorem point_action_in_grid (start step c : vector_float32) (shape : vector_int32)
    (hstep : 0 < step.x ∧ 0 < step.y ∧ 0 < step.z)
    (hint : shape.x < 2 ^ 31 ∧ shape.y < 2 ^ 31 ∧ shape.z < 2 ^ 31)
    (hlow : ¬ below_start start c)
    (hx : trunc ((c.x - start.x) / step.x) < shape.x)
    (hy : trunc ((c.y - start.y) / step.y) < shape.y)
    (hz : trunc ((c.z - start.z) / step.z) < shape.z) :
    0 ≤ trunc ((c.x - start.x) / step.x)
      ∧ 0 ≤ trunc ((c.y - start.y) / step.y)
      ∧ 0 ≤ trunc ((c.z - start.z) / step.z)
      ∧ indices_at start step c
          = some ⟨trunc ((c.x - start.x) / step.x), trunc ((c.y - start.y) / step.y),
              trunc ((c.z - start.z) / step.z)⟩
      ∧ point_action start step shape c
          = .add ⟨(c.x - start.x) / step.x, (c.y - start.y) / step.y, (c.z - start.z) / step.z⟩
              (offset ⟨trunc ((c.x - start.x) / step.x), trunc ((c.y - start.y) / step.y),
                trunc ((c.z - start.z) / step.z)⟩ shape) := by
  have hlow1 := hlow
  unfold below_start at hlow1
  push_neg at hlow1
  obtain ⟨l1, l2, l3⟩ := hlow1
  obtain ⟨s1, s2, s3⟩ := hstep
  have tx : 0 ≤ trunc ((c.x - start.x) / step.x) :=
    trunc_nonneg _ (div_nonneg (by linarith) s1.le)
  have ty : 0 ≤ trunc ((c.y - start.y) / step.y) :=
    trunc_nonneg _ (div_nonneg (by linarith) s2.le)
  have tz : 0 ≤ trunc ((c.z - start.z) / step.z) :=
    trunc_nonneg _ (div_nonneg (by linarith) s3.le)
  have hd : vector_divide (vector_subtract c start) step
      = some ⟨(c.x - start.x) / step.x, (c.y - start.y) / step.y, (c.z - start.z) / step.z⟩ := by
    simp [vector_divide, vector_subtract, s1.ne', s2.ne', s3.ne']
  have fx := float_to_int_of_fits ((c.x - start.x) / step.x) (by omega) (by omega)
  have fy := float_to_int_of_fits ((c.y - start.y) / step.y) (by omega) (by omega)
  have fz := float_to_int_of_fits ((c.z - start.z) / step.z) (by omega) (by omega)
  have hidx : indices_at start step c
      = some ⟨trunc ((c.x - start.x) / step.x), trunc ((c.y - start.y) / step.y),
          trunc ((c.z - start.z) / step.z)⟩ := by
    simp [indices_at, hd, fx, fy, fz]
  refine ⟨tx, ty, tz, hidx, ?_⟩
  obtain ⟨l, hl, hp⟩ := point_action_of_indices start step c shape _ hlow hidx
  rw [hd] at hl
  simp only [Option.some.injEq] at hl
  subst hl
  rw [hp, if_neg]
  simp only [over_shape, not_or, not_le, ge_iff_le]
  exact ⟨hx, hy, hz⟩

theorem indices_at_of_fits (start step c : vector_float32)
    (hstep : 0 < step.x ∧ 0 < step.y ∧ 0 < step.z)
    (hlow : ¬ below_start start c)
    (hx : trunc ((c.x - start.x) / step.x) < 2 ^ 31)
    (hy : trunc ((c.y - start.y) / step.y) < 2 ^ 31)
    (hz : trunc ((c.z - start.z) / step.z) < 2 ^ 31) :
    indices_at start step c
      = some ⟨trunc ((c.x - start.x) / step.x), trunc ((c.y - start.y) / step.y),
          trunc ((c.z - start.z) / step.z)⟩ := by
  unfold below_start at hlow
  push_neg at hlow
  obtain ⟨l1, l2, l3⟩ := hlow
  obtain ⟨s1, s2, s3⟩ := hstep
  have tx : 0 ≤ trunc ((c.x - start.x) / step.x) :=
    trunc_nonneg _ (div_nonneg (by linarith) s1.le)
  have ty : 0 ≤ trunc ((c.y - start.y) / step.y) :=
    trunc_nonneg _ (div_nonneg (by linarith) s2.le)
  have tz : 0 ≤ trunc ((c.z - start.z) / step.z) :=
    trunc_nonneg _ (div_nonneg (by linarith) s3.le)
  have hd : vector_divide (vector_subtract c start) step
      = some ⟨(c.x - start.x) / step.x, (c.y - start.y) / step.y, (c.z - start.z) / step.z⟩ := by
    simp [vector_divide, vector_subtract, s1.ne', s2.ne', s3.ne']
  have fx := float_to_int_of_fits ((c.x - start.x) / step.x) (by omega) hx
  have fy := float_to_int_of_fits ((c.y - start.y) / step.y) (by omega) hy
  have fz := float_to_int_of_fits ((c.z - start.z) / step.z) (by omega) hz
  simp [indices_at, hd, fx, fy, fz]

theorem indices_at_eq_some (start step c : vector_float32) (idx : vector_int32)
    (h : indices_at start step c = some idx) :
    (step.x ≠ 0 ∧ step.y ≠ 0 ∧ step.z ≠ 0)
      ∧ idx = ⟨trunc ((c.x - start.x) / step.x), trunc ((c.y - start.y) / step.y),
          trunc ((c.z - start.z) / step.z)⟩
      ∧ (-2 ^ 31 ≤ idx.x ∧ idx.x < 2 ^ 31) ∧ (-2 ^ 31 ≤ idx.y ∧ idx.y < 2 ^ 31)
      ∧ (-2 ^ 31 ≤ idx.z ∧ idx.z < 2 ^ 31) := by
  unfold indices_at vector_divide vector_subtract at h
  by_cases hs : step.x = 0 ∨ step.y = 0 ∨ step.z = 0
  · simp [hs] at h
  · simp only [hs, if_false] at h
    push_neg at hs
    cases hx : float_to_int ((c.x - start.x) / step.x) with
    | none => simp [hx] at h
    | some ix =>
      cases hy : float_to_int ((c.y - start.y) / step.y) with
      | none => simp [hx, hy] at h
      | some iy =>
        cases hz : float_to_int ((c.z - start.z) / step.z) with
        | none => simp [hx, hy, hz] at h
        | some iz =>
          simp only [hx, hy, hz, Option.some.injEq] at h
          subst h
          obtain ⟨ex, bx⟩ := float_to_int_eq_some _ _ hx
          obtain ⟨ey, bY⟩ := float_to_int_eq_some _ _ hy
          obtain ⟨ez, bz⟩ := float_to_int_eq_some _ _ hz
          refine ⟨hs, ?_, bx, bY, bz⟩
          rw [ex, ey, ez]

/-- A rejected point leaves both grids as they were: the lower test leaves the
whole memory untouched, the upper test only overwrites the point itself. -/
theorem weighted_bin_3d_body_of_rejected (m : Memory) (i : Nat) (c : vector_float32)
    (hc : m.coords[i]? = some c)
    (h : below_start m.start c
      ∨ ∃ idx, indices_at m.start m.step c = some idx ∧ over_shape m.shape idx) :
    ∃ m1, weighted_bin_3d_body i m = .ok m1 ∧ m1.out = m.out ∧ m1.count = m.count
      ∧ (below_start m.start c → m1 = m) := by
  rw [weighted_bin_3d_body_eq i m c hc]
  by_cases hb : below_start m.start c
  · rw [point_action_of_below_start _ _ _ _ hb]
    simp [Action.run, Action.coord, Memory.grids, set_same _ _ _ hc]
  · rcases h with h | ⟨idx, hidx, hover⟩
    · exact absurd h hb
    · obtain ⟨l, _, hp⟩ := point_action_of_indices m.start m.step c m.shape idx hb hidx
      rw [hp, if_pos hover]
      simp [Action.run, Action.coord, Memory.grids, hb]

/-! ## Claims on one iteration -/

/-- Claim C1 as stated fails: on the scenario grid with the nonzero step
`(-1, 1, 1)`, the point `(1, 0, 0)` passes the lower test and its truncated
index `(-1, 0, 0)` is below the shape on every axis, yet the iteration adds
nothing to any cell: the offset is `2^64 - 4`, outside the eight-cell grids. -/
theorem accumulation_fails_for_negative_step :
    ((-1 : ℚ) ≠ 0 ∧ (1 : ℚ) ≠ 0) ∧ (0 : Int) < 2
      ∧ ¬ below_start ⟨0, 0, 0⟩ ⟨1, 0, 0⟩
      ∧ trunc ((1 - 0) / (-1)) = -1 ∧ trunc ((0 - 0) / 1) = 0
      ∧ (-1 : Int) < 2 ∧ (0 : Int) < 2
      ∧ offset ⟨-1, 0, 0⟩ ⟨2, 2, 2⟩ = 18446744073709551612
      ∧ weighted_bin_3d_body 0 (scenario ⟨-1, 1, 1⟩ [⟨1, 0, 0⟩] [3])
          = .error .outOfBounds := by
  have h : offset ⟨-1, 0, 0⟩ ⟨2, 2, 2⟩ = 18446744073709551612 := by decide
  refine ⟨by norm_num, by decide, by norm_num [below_start], by norm_num [trunc],
    by norm_num [trunc], by decide, by decide, h, ?_⟩
  norm_num [weighted_bin_3d_body, scenario, vector_divide, vector_subtract, float_to_int,
    trunc, h]

/-- Claim C1, amended: on a grid with positive step, positive shape, fewer than
`2^31` cells and grids of that many cells, the iteration for a point that
passes the lower test and whose truncated index `trunc((p - start)/step)` is
below the shape on every axis completes, adds the weight to the accumulator
cell at `ix*shape.z*shape.y + iy*shape.z + iz`, adds one (in `uint32_t`
arithmetic) to the count cell at that offset, and leaves every other cell of
both grids unchanged. -/
theorem weighted_bin_3d_body_accumulates (m : Memory) (i : Nat) (c : vector_float32) (w : ℚ)
    (hc : m.coords[i]? = some c) (hw : m.weights[i]? = some w)
    (hstep : 0 < m.step.x ∧ 0 < m.step.y ∧ 0 < m.step.z)
    (hshape : 0 < m.shape.x ∧ 0 < m.shape.y ∧ 0 < m.shape.z)
    (hprod : m.shape.x * m.shape.y * m.shape.z < 2 ^ 31)
    (hout : (m.out.length : Int) = m.shape.x * m.shape.y * m.shape.z)
    (hcount : (m.count.length : Int) = m.shape.x * m.shape.y * m.shape.z)
    (hlow : ¬ below_start m.start c)
    (hx : trunc ((c.x - m.start.x) / m.step.x) < m.shape.x)
    (hy : trunc ((c.y - m.start.y) / m.step.y) < m.shape.y)
    (hz : trunc ((c.z - m.start.z) / m.step.z) < m.shape.z) :
    ∃ (off : Nat) (o : ℚ) (cnt : Nat) (m1 : Memory),
      (off : Int) = trunc ((c.x - m.start.x) / m.step.x) * m.shape.z * m.shape.y
          + trunc ((c.y - m.start.y) / m.step.y) * m.shape.z
          + trunc ((c.z - m.start.z) / m.step.z)
        ∧ m.out[off]? = some o ∧ m.count[off]? = some cnt
        ∧ weighted_bin_3d_body i m = .ok m1
        ∧ m1.out[off]? = some (o + w)
        ∧ m1.count[off]? = some ((cnt + 1) % 2 ^ 32)
        ∧ (cnt + 1 < 2 ^ 32 → m1.count[off]? = some (cnt + 1))
        ∧ (∀ j, j ≠ off → m1.out[j]? = m.out[j]? ∧ m1.count[j]? = m.count[j]?)
        ∧ m1.out.length = m.out.length ∧ m1.count.length = m.count.length := by
  obtain ⟨p1, p2, p3⟩ := hshape
  have q1 : m.shape.x ≤ m.shape.x * m.shape.y * m.shape.z := by
    have : 1 ≤ m.shape.y * m.shape.z := by nlinarith
    nlinarith
  have q2 : m.shape.y ≤ m.shape.x * m.shape.y * m.shape.z := by
    have : 1 ≤ m.shape.x * m.shape.z := by nlinarith
    nlinarith
  have q3 : m.shape.z ≤ m.shape.x * m.shape.y * m.shape.z := by
    have : 1 ≤ m.shape.x * m.shape.y := by nlinarith
    nlinarith
  obtain ⟨tx, ty, tz, _, hp⟩ := point_action_in_grid m.start m.step c m.shape hstep
    ⟨by omega, by omega, by omega⟩ hlow hx hy hz
  obtain ⟨e, b⟩ := offset_of_small_grid
    ⟨trunc ((c.x - m.start.x) / m.step.x), trunc ((c.y - m.start.y) / m.step.y),
      trunc ((c.z - m.start.z) / m.step.z)⟩ m.shape hprod tx hx ty hy tz hz
  simp only at e
  generalize offset ⟨trunc ((c.x - m.start.x) / m.step.x),
    trunc ((c.y - m.start.y) / m.step.y), trunc ((c.z - m.start.z) / m.step.z)⟩ m.shape
    = off at e b hp
  have lo : off < m.out.length := by omega
  have lc : off < m.count.length := by omega
  have ho : m.out[off]? = some m.out[off] := List.getElem?_eq_getElem lo
  have hcn : m.count[off]? = some m.count[off] := List.getElem?_eq_getElem lc
  refine ⟨off, m.out[off], m.count[off],
    { m with
      coords := m.coords.set i
        ⟨(c.x - m.start.x) / m.step.x, (c.y - m.start.y) / m.step.y,
          (c.z - m.start.z) / m.step.z⟩
      out := m.out.set off (m.out[off] + w)
      count := m.count.set off ((m.count[off] + 1) % 2 ^ 32) }, e, ho, hcn, ?_, ?_⟩
  · rw [weighted_bin_3d_body_eq i m c hc, hp]
    simp only [Action.run, accumulate, Memory.grids, ho, hw, hcn, Action.coord]
  · simp only [List.getElem?_set, List.length_set, if_pos lo, if_pos lc,
      if_true, true_and]
    refine ⟨fun hlt => by rw [Nat.mod_eq_of_lt hlt], fun j hj => ?_, trivial⟩
    simp [Ne.symm hj]

/-- Claim C1 at the first scenario of the specification: the point
`(1/2, 1/2, 1/2)` with weight `3` on the zeroed scenario grid with unit
step. -/
theorem weighted_bin_3d_body_accumulates_witness :
    (∃ (off : Nat) (o : ℚ) (cnt : Nat) (m1 : Memory),
      (off : Int) = trunc ((1 / 2 - 0) / 1) * 2 * 2 + trunc ((1 / 2 - 0) / 1) * 2
          + trunc ((1 / 2 - 0) / 1)
        ∧ (scenario ⟨1, 1, 1⟩ [⟨1 / 2, 1 / 2, 1 / 2⟩] [3]).out[off]? = some o
        ∧ (scenario ⟨1, 1, 1⟩ [⟨1 / 2, 1 / 2, 1 / 2⟩] [3]).count[off]? = some cnt
        ∧ weighted_bin_3d_body 0 (scenario ⟨1, 1, 1⟩ [⟨1 / 2, 1 / 2, 1 / 2⟩] [3]) = .ok m1
        ∧ m1.out[off]? = some (o + 3)
        ∧ m1.count[off]? = some ((cnt + 1) % 2 ^ 32)
        ∧ (cnt + 1 < 2 ^ 32 → m1.count[off]? = some (cnt + 1))
        ∧ (∀ j, j ≠ off → m1.out[j]? = (scenario ⟨1, 1, 1⟩ [⟨1 / 2, 1 / 2, 1 / 2⟩] [3]).out[j]?
            ∧ m1.count[j]? = (scenario ⟨1, 1, 1⟩ [⟨1 / 2, 1 / 2, 1 / 2⟩] [3]).count[j]?)
        ∧ m1.out.length = (scenario ⟨1, 1, 1⟩ [⟨1 / 2, 1 / 2, 1 / 2⟩] [3]).out.length
        ∧ m1.count.length = (scenario ⟨1, 1, 1⟩ [⟨1 / 2, 1 / 2, 1 / 2⟩] [3]).count.length)
      ∧ weighted_bin_3d_body 0 (scenario ⟨1, 1, 1⟩ [⟨1 / 2, 1 / 2, 1 / 2⟩] [3])
          = .ok { scenario ⟨1, 1, 1⟩ [⟨1 / 2, 1 / 2, 1 / 2⟩] [3] with
                  out := [3, 0, 0, 0, 0, 0, 0, 0], count := [1, 0, 0, 0, 0, 0, 0, 0] }
      ∧ weighted_bin_3d_body 0 (scenario ⟨1, 1, 1⟩ [⟨19 / 10, 19 / 10, 19 / 10⟩] [3])
          = .ok { scenario ⟨1, 1, 1⟩ [⟨19 / 10, 19 / 10, 19 / 10⟩] [3] with
                  out := [0, 0, 0, 0, 0, 0, 0, 3], count := [0, 0, 0, 0, 0, 0, 0, 1] } := by
  have h0 : offset ⟨0, 0, 0⟩ ⟨2, 2, 2⟩ = 0 := by decide
  have h7 : offset ⟨1, 1, 1⟩ ⟨2, 2, 2⟩ = 7 := by decide
  refine ⟨weighted_bin_3d_body_accumulates (scenario ⟨1, 1, 1⟩ [⟨1 / 2, 1 / 2, 1 / 2⟩] [3]) 0
    ⟨1 / 2, 1 / 2, 1 / 2⟩ 3 rfl rfl (by norm_num [scenario]) (by norm_num [scenario])
    (by norm_num [scenario]) (by norm_num [scenario]) (by norm_num [scenario])
    (by norm_num [scenario, below_start]) (by norm_num [scenario, trunc])
    (by norm_num [scenario, trunc]) (by norm_num [scenario, trunc]), ?_, ?_⟩
  · norm_num [weighted_bin_3d_body, scenario, vector_divide, vector_subtract, float_to_int,
      trunc, h0]
  · norm_num [weighted_bin_3d_body, scenario, vector_divide, vector_subtract, float_to_int,
      trunc, h7]

/-- Claim C2, evaluated on the code: on the scenario grid with unit step the
point `(2^31, 0, 0)` passes the lower test and its truncated index
`(2^31, 0, 0)` is over the shape on the first axis, but `2^31` is not
representable in `int`: the conversion at line 127 is undefined and the
iteration does not end in a skip.  Were the conversion to give `INT_MIN`, as
the x86 instruction does, the upper test would not reject the index and its
offset would be `0`, a cell of the grid. -/
theorem far_point_is_not_skipped :
    ¬ below_start ⟨0, 0, 0⟩ ⟨2147483648, 0, 0⟩
      ∧ trunc ((2147483648 - 0) / 1) = 2147483648
      ∧ (2 : Int) ≤ 2147483648
      ∧ float_to_int ((2147483648 - 0) / 1) = none
      ∧ weighted_bin_3d_body 0 (scenario ⟨1, 1, 1⟩ [⟨2147483648, 0, 0⟩] [1])
          = .error .conversion
      ∧ weighted_bin_3d (scenario ⟨1, 1, 1⟩ [⟨2147483648, 0, 0⟩] [1]) = .error .conversion
      ∧ ¬ over_shape ⟨2, 2, 2⟩ ⟨-2147483648, 0, 0⟩
      ∧ offset ⟨-2147483648, 0, 0⟩ ⟨2, 2, 2⟩ = 0 := by
  refine ⟨by norm_num [below_start], by norm_num [trunc], by decide,
    by norm_num [float_to_int, trunc], ?_, ?_, by decide, by decide⟩
  · norm_num [weighted_bin_3d_body, scenario, vector_divide, vector_subtract, float_to_int,
      trunc]
  · rw [weighted_bin_3d_of_one_point _ (by decide)]
    norm_num [weighted_bin_3d_body, scenario, vector_divide, vector_subtract, float_to_int,
      trunc]

/-- Claim C9 as stated fails: with the nonzero step `(-1, 1, 1)`, start
`(0, 0, 0)` and shape `(2, 2, 2)`, the point `(5, 0, 0)` is rejected by neither
test, yet its index is `(-5, 0, 0)`; the offset the code computes for it is
`2^64 - 20`, not below the eight cells of the grid, and the iteration writes
outside the grids. -/
theorem negative_step_gives_negative_index :
    ((-1 : ℚ) ≠ 0 ∧ (1 : ℚ) ≠ 0) ∧ (0 : Int) < 2
      ∧ ¬ below_start ⟨0, 0, 0⟩ ⟨5, 0, 0⟩
      ∧ trunc ((5 - 0) / (-1)) = -5 ∧ trunc ((0 - 0) / 1) = 0
      ∧ indices_at ⟨0, 0, 0⟩ ⟨-1, 1, 1⟩ ⟨5, 0, 0⟩ = some ⟨-5, 0, 0⟩
      ∧ ¬ over_shape ⟨2, 2, 2⟩ ⟨-5, 0, 0⟩
      ∧ ¬ (0 : Int) ≤ -5
      ∧ offset ⟨-5, 0, 0⟩ ⟨2, 2, 2⟩ = 18446744073709551596
      ∧ ¬ (18446744073709551596 : Int) < 2 * 2 * 2
      ∧ weighted_bin_3d_body 0 (scenario ⟨-1, 1, 1⟩ [⟨5, 0, 0⟩] [3])
          = .error .outOfBounds := by
  have h : offset ⟨-5, 0, 0⟩ ⟨2, 2, 2⟩ = 18446744073709551596 := by decide
  refine ⟨by norm_num, by decide, by norm_num [below_start], by norm_num [trunc],
    by norm_num [trunc], ?_, by decide, by decide, h, by decide, ?_⟩
  · norm_num [indices_at, vector_divide, vector_subtract, float_to_int, trunc]
  · norm_num [weighted_bin_3d_body, scenario, vector_divide, vector_subtract, float_to_int,
      trunc, h]

/-- Claim C9, amended: on a grid with positive step and positive `int32`
shape, for every point whose truncated index is representable in `int`, the
iteration of the code either rejects the point and leaves both grids as they
were, or goes on to the accumulation; in the latter case the point is not
below the start, each component of its index `trunc((p - start)/step)` lies in
`[0, shape component)`, the accumulation is made at the offset of that index,
and when the grid has fewer than `2^31` cells that offset is below
`shape.x*shape.y*shape.z`. -/
theorem index_within_shape_of_positive_step (m : Memory) (i : Nat) (c : vector_float32)
    (hc : m.coords[i]? = some c)
    (hstep : 0 < m.step.x ∧ 0 < m.step.y ∧ 0 < m.step.z)
    (_hshape : 0 < m.shape.x ∧ 0 < m.shape.y ∧ 0 < m.shape.z)
    (hint : m.shape.x < 2 ^ 31 ∧ m.shape.y < 2 ^ 31 ∧ m.shape.z < 2 ^ 31)
    (hfit : index_fits m.start m.step c) :
    (∃ m1, weighted_bin_3d_body i m = .ok m1 ∧ m1.out = m.out ∧ m1.count = m.count)
      ∨ (¬ below_start m.start c
        ∧ (0 ≤ trunc ((c.x - m.start.x) / m.step.x)
          ∧ trunc ((c.x - m.start.x) / m.step.x) < m.shape.x)
        ∧ (0 ≤ trunc ((c.y - m.start.y) / m.step.y)
          ∧ trunc ((c.y - m.start.y) / m.step.y) < m.shape.y)
        ∧ (0 ≤ trunc ((c.z - m.start.z) / m.step.z)
          ∧ trunc ((c.z - m.start.z) / m.step.z) < m.shape.z)
        ∧ indices_at m.start m.step c
            = some ⟨trunc ((c.x - m.start.x) / m.step.x),
                trunc ((c.y - m.start.y) / m.step.y),
                trunc ((c.z - m.start.z) / m.step.z)⟩
        ∧ weighted_bin_3d_body i m
            = (match accumulate
                  (offset ⟨trunc ((c.x - m.start.x) / m.step.x),
                    trunc ((c.y - m.start.y) / m.step.y),
                    trunc ((c.z - m.start.z) / m.step.z)⟩ m.shape)
                  m.weights[i]? m.grids with
              | .ok g =>
                .ok { m with
                      coords := m.coords.set i
                        ⟨(c.x - m.start.x) / m.step.x, (c.y - m.start.y) / m.step.y,
                          (c.z - m.start.z) / m.step.z⟩
                      out := g.1
                      count := g.2 }
              | .error e => .error e)
        ∧ (m.shape.x * m.shape.y * m.shape.z < 2 ^ 31 →
            (offset ⟨trunc ((c.x - m.start.x) / m.step.x),
                trunc ((c.y - m.start.y) / m.step.y),
                trunc ((c.z - m.start.z) / m.step.z)⟩ m.shape : Int)
              < m.shape.x * m.shape.y * m.shape.z)) := by
  by_cases hb : below_start m.start c
  · left
    obtain ⟨m1, h1, h2, h3, _⟩ := weighted_bin_3d_body_of_rejected m i c hc (Or.inl hb)
    exact ⟨m1, h1, h2, h3⟩
  · obtain ⟨f1, f2, f3⟩ := hfit hb
    have hidx := indices_at_of_fits m.start m.step c hstep hb f1 f2 f3
    by_cases ho : over_shape m.shape
        ⟨trunc ((c.x - m.start.x) / m.step.x), trunc ((c.y - m.start.y) / m.step.y),
          trunc ((c.z - m.start.z) / m.step.z)⟩
    · left
      obtain ⟨m1, h1, h2, h3, _⟩ :=
        weighted_bin_3d_body_of_rejected m i c hc (Or.inr ⟨_, hidx, ho⟩)
      exact ⟨m1, h1, h2, h3⟩
    · right
      have ho1 := ho
      unfold over_shape at ho1
      push_neg at ho1
      obtain ⟨hx, hy, hz⟩ := ho1
      obtain ⟨tx, ty, tz, _, hp⟩ :=
        point_action_in_grid m.start m.step c m.shape hstep hint hb hx hy hz
      refine ⟨hb, ⟨tx, hx⟩, ⟨ty, hy⟩, ⟨tz, hz⟩, hidx, ?_, fun hprod => ?_⟩
      · rw [weighted_bin_3d_body_eq i m c hc, hp]
        rfl
      · exact (offset_of_small_grid _ m.shape hprod tx hx ty hy tz hz).2

/-- Claim C9 at the third scenario of the specification: the point
`(19/10, 19/10, 19/10)` on the scenario grid with unit step is not rejected; it
is accumulated with the index `(1, 1, 1)` at the offset `7`, below the eight
cells. -/
theorem index_within_shape_of_positive_step_witness :
    trunc ((19 / 10 - 0) / 1) = 1
      ∧ weighted_bin_3d_body 0 (scenario ⟨1, 1, 1⟩ [⟨19 / 10, 19 / 10, 19 / 10⟩] [3])
          = .ok { scenario ⟨1, 1, 1⟩ [⟨19 / 10, 19 / 10, 19 / 10⟩] [3] with
                  out := [0, 0, 0, 0, 0, 0, 0, 3], count := [0, 0, 0, 0, 0, 0, 0, 1] }
      ∧ ¬ below_start ⟨0, 0, 0⟩ ⟨19 / 10, 19 / 10, 19 / 10⟩
      ∧ ((0 : Int) ≤ 1 ∧ (1 : Int) < 2)
      ∧ indices_at ⟨0, 0, 0⟩ ⟨1, 1, 1⟩ ⟨19 / 10, 19 / 10, 19 / 10⟩ = some ⟨1, 1, 1⟩
      ∧ offset ⟨1, 1, 1⟩ ⟨2, 2, 2⟩ = 7
      ∧ (offset ⟨1, 1, 1⟩ ⟨2, 2, 2⟩ : Int) < 2 * 2 * 2 := by
  have ht : trunc ((19 / 10 - 0) / 1) = 1 := by norm_num [trunc]
  have h7 : offset ⟨1, 1, 1⟩ ⟨2, 2, 2⟩ = 7 := by decide
  have hbody : weighted_bin_3d_body 0 (scenario ⟨1, 1, 1⟩ [⟨19 / 10, 19 / 10, 19 / 10⟩] [3])
      = .ok { scenario ⟨1, 1, 1⟩ [⟨19 / 10, 19 / 10, 19 / 10⟩] [3] with
              out := [0, 0, 0, 0, 0, 0, 0, 3], count := [0, 0, 0, 0, 0, 0, 0, 1] } := by
    norm_num [weighted_bin_3d_body, scenario, vector_divide, vector_subtract, float_to_int,
      trunc, h7]
  have h := index_within_shape_of_positive_step
    (scenario ⟨1, 1, 1⟩ [⟨19 / 10, 19 / 10, 19 / 10⟩] [3]) 0 ⟨19 / 10, 19 / 10, 19 / 10⟩ rfl
    (by norm_num [scenario]) (by norm_num [scenario]) (by norm_num [scenario])
    (by norm_num [scenario, index_fits, below_start, trunc])
  refine ⟨ht, hbody, ?_⟩
  rcases h with ⟨m1, h1, h2, _⟩ | ⟨hb, _, _, _, hidx, _, hlt⟩
  · exfalso
    rw [hbody] at h1
    simp only [Except.ok.injEq] at h1
    rw [← h1] at h2
    norm_num [scenario] at h2
  · simp only [scenario, ht] at hb hidx hlt
    exact ⟨hb, by decide, hidx, h7, hlt (by decide)⟩

/-! ## What the call leaves in the point set -/

theorem point_action_of_no_index (start step c : vector_float32) (shape : vector_int32)
    (hlow : ¬ below_start start c) (h : indices_at start step c = none) :
    point_action start step shape c = .fault .conversion := by
  unfold below_start at hlow
  push_neg at hlow
  obtain ⟨l1, l2, l3⟩ := hlow
  unfold indices_at at h
  unfold point_action
  simp only [not_lt.mpr l1, not_lt.mpr l2, not_lt.mpr l3, if_false]
  cases hd : vector_divide (vector_subtract c start) step with
  | none => rfl
  | some l =>
    simp only [hd] at h
    cases hx : float_to_int l.x with
    | none => simp [hx]
    | some ix =>
      cases hy : float_to_int l.y with
      | none => simp [hx, hy]
      | some iy =>
        cases hz : float_to_int l.z with
        | none => simp [hx, hy, hz]
        | some iz => simp [hx, hy, hz] at h

theorem point_action_coord (start step c : vector_float32) (shape : vector_int32)
    (h : ∀ e, point_action start step shape c ≠ .fault e) :
    (point_action start step shape c).coord c = coord_after start step c := by
  unfold coord_after
  by_cases hb : below_start start c
  · rw [point_action_of_below_start _ _ _ _ hb, if_pos hb]
    rfl
  · rw [if_neg hb]
    cases hi : indices_at start step c with
    | none => exact absurd (point_action_of_no_index start step c shape hb hi) (h _)
    | some idx =>
      obtain ⟨l, hl, hp⟩ := point_action_of_indices start step c shape idx hb hi
      obtain ⟨⟨n1, n2, n3⟩, _⟩ := indices_at_eq_some start step c idx hi
      have hd : vector_divide (vector_subtract c start) step
          = some ⟨(c.x - start.x) / step.x, (c.y - start.y) / step.y,
              (c.z - start.z) / step.z⟩ := by
        simp [vector_divide, vector_subtract, n1, n2, n3]
      rw [hd] at hl
      simp only [Option.some.injEq] at hl
      subst hl
      rw [hp]
      by_cases ho : over_shape shape idx
      · rw [if_pos ho]
        rfl
      · rw [if_neg ho]
        rfl

theorem run_points_coords (start step : vector_float32) (shape : vector_int32) :
    ∀ (ps : List (vector_float32 × Option ℚ)) (g : List ℚ × List Nat)
      (r : List vector_float32 × (List ℚ × List Nat)),
      run_points start step shape ps g = .ok r →
        r.1 = ps.map (fun p => coord_after start step p.1) := by
  intro ps
  induction ps with
  | nil =>
    intro g r h
    simp only [run_points, Except.ok.injEq] at h
    subst h
    rfl
  | cons p rest ih =>
    intro g r h
    obtain ⟨c, w⟩ := p
    simp only [run_points] at h
    cases ha : (point_action start step shape c).run w g with
    | error e => simp [ha] at h
    | ok g1 =>
      simp only [ha] at h
      cases hr : run_points start step shape rest g1 with
      | error e => simp [hr] at h
      | ok r1 =>
        simp only [hr, Except.ok.injEq] at h
        subst h
        have hnf : ∀ e, point_action start step shape c ≠ .fault e := by
          intro e he
          rw [he] at ha
          simp [Action.run] at ha
        simp only [List.map_cons, point_action_coord start step c shape hnf, ih g1 r1 hr]

theorem pairs_from_map_fst (ws : List ℚ) :
    ∀ (cs : List vector_float32) (i : Nat), (pairs_from ws i cs).map Prod.fst = cs := by
  intro cs
  induction cs with
  | nil => intro i; rfl
  | cons c rest ih =>
    intro i
    simp [pairs_from, ih]

/-- Whenever the call completes, the weights and the geometry are as before
and every point holds `coord_after`. -/
theorem frame_of_completed_call (m m1 : Memory) (hmax : m.coords.length ≤ max_vectors)
    (h : weighted_bin_3d m = .ok m1) :
    m1.weights = m.weights ∧ m1.start = m.start ∧ m1.stop = m.stop ∧ m1.step = m.step
      ∧ m1.shape = m.shape
      ∧ m1.coords = m.coords.map (coord_after m.start m.step) := by
  rw [weighted_bin_3d_eq m hmax] at h
  cases hr : run_points m.start m.step m.shape (pairs_from m.weights 0 m.coords) m.grids with
  | error e => simp [hr] at h
  | ok r =>
    simp only [hr, Except.ok.injEq] at h
    subst h
    refine ⟨rfl, rfl, rfl, rfl, rfl, ?_⟩
    have := run_points_coords _ _ _ _ _ _ hr
    simp only [this]
    have e : (fun p : vector_float32 × Option ℚ => coord_after m.start m.step p.1)
        = coord_after m.start m.step ∘ Prod.fst := rfl
    rw [e, ← List.map_map, pairs_from_map_fst]

/-! ## Sums over the grids -/

theorem sum_set_add (l : List ℚ) :
    ∀ (i : Nat) (o w : ℚ), l[i]? = some o → (l.set i (o + w)).sum = l.sum + w := by
  induction l with
  | nil => intro i o w h; simp at h
  | cons a t ih =>
    intro i o w h
    cases i with
    | zero =>
      simp only [List.getElem?_cons_zero, Option.some.injEq] at h
      subst h
      simp only [List.set_cons_zero, List.sum_cons]
      ring
    | succ k =>
      simp only [List.getElem?_cons_succ] at h
      simp only [List.set_cons_succ, List.sum_cons, ih k o w h]
      ring

theorem sum_set_succ (l : List Nat) :
    ∀ (i c : Nat), l[i]? = some c → (l.set i (c + 1)).sum = l.sum + 1 ∧ c ≤ l.sum := by
  induction l with
  | nil => intro i c h; simp at h
  | cons a t ih =>
    intro i c h
    cases i with
    | zero =>
      simp only [List.getElem?_cons_zero, Option.some.injEq] at h
      subst h
      simp only [List.set_cons_zero, List.sum_cons]
      omega
    | succ k =>
      simp only [List.getElem?_cons_succ] at h
      obtain ⟨e, b⟩ := ih k c h
      simp only [List.set_cons_succ, List.sum_cons, e]
      omega

theorem pairs_from_eq_zip (ws : List ℚ) :
    ∀ (cs : List vector_float32) (i : Nat), i + cs.length ≤ ws.length →
      pairs_from ws i cs = (cs.zip (ws.drop i)).map (fun p => (p.1, some p.2)) := by
  intro cs
  induction cs with
  | nil => intro i _; rfl
  | cons c rest ih =>
    intro i h
    simp only [List.length_cons] at h
    have hlt : i < ws.length := by omega
    rw [List.drop_eq_getElem_cons hlt]
    simp only [pairs_from, List.zip_cons_cons, List.map_cons, List.getElem?_eq_getElem hlt]
    rw [ih (i + 1) (by omega)]

/-- On a well-formed geometry a point whose index fits either reaches the
accumulation at an offset inside the grid (exactly when it is in the grid) or
is skipped. -/
theorem point_action_of_well_formed (start step : vector_float32) (shape : vector_int32)
    (P : Nat)
    (hstep : 0 < step.x ∧ 0 < step.y ∧ 0 < step.z)
    (hshape : 0 < shape.x ∧ 0 < shape.y ∧ 0 < shape.z)
    (hprod : shape.x * shape.y * shape.z < 2 ^ 31)
    (hP : (P : Int) = shape.x * shape.y * shape.z)
    (c : vector_float32) (hfit : index_fits start step c) :
    (in_grid start step shape c →
        ∃ l off, point_action start step shape c = .add l off ∧ off < P)
      ∧ (¬ in_grid start step shape c → ∃ c1, point_action start step shape c = .skip c1) := by
  obtain ⟨p1, p2, p3⟩ := hshape
  have q1 : shape.x ≤ shape.x * shape.y * shape.z := by
    have : 1 ≤ shape.y * shape.z := by nlinarith
    nlinarith
  have q2 : shape.y ≤ shape.x * shape.y * shape.z := by
    have : 1 ≤ shape.x * shape.z := by nlinarith
    nlinarith
  have q3 : shape.z ≤ shape.x * shape.y * shape.z := by
    have : 1 ≤ shape.x * shape.y := by nlinarith
    nlinarith
  constructor
  · rintro ⟨hlow, hx, hy, hz⟩
    obtain ⟨tx, ty, tz, _, hp⟩ := point_action_in_grid start step c shape hstep
      ⟨by omega, by omega, by omega⟩ hlow hx hy hz
    obtain ⟨_, b⟩ := offset_of_small_grid
      ⟨trunc ((c.x - start.x) / step.x), trunc ((c.y - start.y) / step.y),
        trunc ((c.z - start.z) / step.z)⟩ shape hprod tx hx ty hy tz hz
    exact ⟨_, _, hp, by omega⟩
  · intro hng
    by_cases hb : below_start start c
    · exact ⟨c, point_action_of_below_start _ _ _ _ hb⟩
    · obtain ⟨f1, f2, f3⟩ := hfit hb
      have hidx := indices_at_of_fits start step c hstep hb f1 f2 f3
      obtain ⟨l, _, hp⟩ := point_action_of_indices start step c shape _ hb hidx
      refine ⟨l, ?_⟩
      rw [hp, if_pos]
      unfold in_grid at hng
      unfold over_shape
      simp only [ge_iff_le]
      by_contra hcon
      push_neg at hcon
      exact hng ⟨hb, hcon.1, hcon.2.1, hcon.2.2⟩

/-- The traversal of points that all carry a weight, on a well-formed geometry
with grids of the right size: it completes, the accumulator gains the weights
of the points in the grid, and, short of a `uint32_t` overflow, the counts gain
their number. -/
theorem run_points_sums (start step : vector_float32) (shape : vector_int32) (P : Nat)
    (hstep : 0 < step.x ∧ 0 < step.y ∧ 0 < step.z)
    (hshape : 0 < shape.x ∧ 0 < shape.y ∧ 0 < shape.z)
    (hprod : shape.x * shape.y * shape.z < 2 ^ 31)
    (hP : (P : Int) = shape.x * shape.y * shape.z) :
    ∀ (ps : List (vector_float32 × ℚ)) (g : List ℚ × List Nat),
      g.1.length = P → g.2.length = P →
      (∀ p ∈ ps, index_fits start step p.1) →
      ∃ r, run_points start step shape (ps.map (fun p => (p.1, some p.2))) g = .ok r
        ∧ r.2.1.length = P ∧ r.2.2.length = P
        ∧ r.2.1.sum
            = g.1.sum + ((ps.filter (fun p => in_grid start step shape p.1)).map Prod.snd).sum
        ∧ (g.2.sum + (ps.filter (fun p => in_grid start step shape p.1)).length < 2 ^ 32 →
            r.2.2.sum
              = g.2.sum + (ps.filter (fun p => in_grid start step shape p.1)).length) := by
  intro ps
  induction ps with
  | nil =>
    intro g h1 h2 _
    exact ⟨([], g), rfl, h1, h2, by simp, by simp⟩
  | cons p rest ih =>
    intro g h1 h2 hfit
    obtain ⟨c, w⟩ := p
    have hfc : index_fits start step c := hfit (c, w) (List.mem_cons_self _ _)
    have hfr : ∀ p ∈ rest, index_fits start step p.1 :=
      fun p hp => hfit p (List.mem_cons_of_mem _ hp)
    obtain ⟨hin, hnot⟩ := point_action_of_well_formed start step shape P hstep hshape hprod hP
      c hfc
    by_cases hg : in_grid start step shape c
    · obtain ⟨l, off, hp, hoff⟩ := hin hg
      have lo : off < g.1.length := by omega
      have lc : off < g.2.length := by omega
      have ho : g.1[off]? = some g.1[off] := List.getElem?_eq_getElem lo
      have hcn : g.2[off]? = some g.2[off] := List.getElem?_eq_getElem lc
      obtain ⟨r, hr, r1, r2, rs, rc⟩ := ih
        (g.1.set off (g.1[off] + w), g.2.set off ((g.2[off] + 1) % 2 ^ 32))
        (by simp [h1]) (by simp [h2]) hfr
      refine ⟨((point_action start step shape c).coord c :: r.1, r.2), ?_, r1, r2, ?_, ?_⟩
      · simp only [List.map_cons, run_points, hp, Action.run, accumulate, ho, hcn, hr]
      · rw [rs]
        simp only [sum_set_add g.1 off _ w ho, List.filter_cons, hg, decide_True, if_true,
          List.map_cons, List.sum_cons]
        ring
      · intro hlt
        simp only [List.filter_cons, hg, decide_True, if_true, List.length_cons] at hlt ⊢
        obtain ⟨e, b⟩ := sum_set_succ g.2 off _ hcn
        have hmod : (g.2[off] + 1) % 2 ^ 32 = g.2[off] + 1 :=
          Nat.mod_eq_of_lt (by omega)
        simp only [hmod] at rc
        rw [rc (by rw [e]; omega), e]
        omega
    · obtain ⟨c1, hp⟩ := hnot hg
      obtain ⟨r, hr, r1, r2, rs, rc⟩ := ih g h1 h2 hfr
      refine ⟨((point_action start step shape c).coord c :: r.1, r.2), ?_, r1, r2, ?_, ?_⟩
      · simp only [List.map_cons, run_points, hp, Action.run, hr]
      · rw [rs]
        simp only [List.filter_cons, hg, decide_False, if_false, Bool.false_eq_true]
      · intro hlt
        simp only [List.filter_cons, hg, decide_False, if_false, Bool.false_eq_true] at hlt ⊢
        exact rc hlt

/-- On a well-formed memory the call completes. -/
theorem weighted_bin_3d_sums_of_well_formed (m : Memory) (hwf : well_formed m) :
    ∃ m1, weighted_bin_3d m = .ok m1
      ∧ m1.out.sum
          = m.out.sum
            + (((m.coords.zip m.weights).filter
                (fun p => in_grid m.start m.step m.shape p.1)).map Prod.snd).sum
      ∧ (m.count.sum
            + ((m.coords.zip m.weights).filter
                (fun p => in_grid m.start m.step m.shape p.1)).length < 2 ^ 32 →
          m1.count.sum
            = m.count.sum
              + ((m.coords.zip m.weights).filter
                  (fun p => in_grid m.start m.step m.shape p.1)).length) := by
  obtain ⟨hstep, hshape, hprod, hout, hcount, hlen, hfit, hmax⟩ := hwf
  have hpairs := pairs_from_eq_zip m.weights m.coords 0 (by omega)
  rw [List.drop_zero] at hpairs
  obtain ⟨r, hr, _, _, rs, rc⟩ := run_points_sums m.start m.step m.shape m.out.length
    hstep hshape hprod hout (m.coords.zip m.weights) m.grids rfl
    (by simp only [Memory.grids]; omega)
    (fun p hp => hfit p.1 (List.of_mem_zip hp).1)
  refine ⟨{ m with coords := r.1, out := r.2.1, count := r.2.2 }, ?_, rs, rc⟩
  rw [weighted_bin_3d_eq m hmax, hpairs, hr]

/-! ## Order of the points -/

theorem accumulate_toOption (off : Nat) (w : ℚ) (g : List ℚ × List Nat) :
    (accumulate off (some w) g).toOption
      = if off < g.1.length ∧ off < g.2.length then
          some (g.1.set off (g.1.getD off 0 + w), g.2.set off ((g.2.getD off 0 + 1) % 2 ^ 32))
        else none := by
  unfold accumulate
  by_cases h1 : off < g.1.length
  · by_cases h2 : off < g.2.length
    · simp [List.getElem?_eq_getElem h1, List.getElem?_eq_getElem h2, h1, h2,
        Except.toOption, List.getD_eq_getElem?_getD]
    · have n2 : g.2[off]? = none := List.getElem?_eq_none (by omega)
      simp [List.getElem?_eq_getElem h1, n2, h2, Except.toOption]
  · have n1 : g.1[off]? = none := List.getElem?_eq_none (by omega)
    simp [n1, h1, Except.toOption]

/-- Two accumulations commute, undefined behaviour included. -/
theorem accumulate_comm (o1 o2 : Nat) (w1 w2 : ℚ) (g : List ℚ × List Nat) :
    ((accumulate o1 (some w1) g).toOption.bind
        fun g1 => (accumulate o2 (some w2) g1).toOption)
      = ((accumulate o2 (some w2) g).toOption.bind
        fun g1 => (accumulate o1 (some w1) g1).toOption) := by
  simp only [accumulate_toOption]
  by_cases h1 : o1 < g.1.length ∧ o1 < g.2.length
  · by_cases h2 : o2 < g.1.length ∧ o2 < g.2.length
    · simp only [h1, h2, and_self, if_true, Option.some_bind, List.length_set]
      by_cases e : o1 = o2
      · subst e
        simp only [List.getD_eq_getElem?_getD, List.getElem?_set, h1.1, h1.2, if_true,
          Option.getD_some, List.set_set, Option.some.injEq, Prod.mk.injEq]
        exact ⟨by rw [add_right_comm], trivial⟩
      · have e1 : ¬ o2 = o1 := fun h => e h.symm
        simp only [List.getD_eq_getElem?_getD, List.getElem?_set, e, e1, if_false,
          Option.some.injEq, Prod.mk.injEq]
        exact ⟨List.set_comm _ _ _ e, List.set_comm _ _ _ e⟩
    · simp [h1, h2]
  · by_cases h2 : o2 < g.1.length ∧ o2 < g.2.length
    · simp [h1, h2]
    · simp [h1, h2]

/-- The effects of two points on the grids commute. -/
theorem grid_step_comm (start step : vector_float32) (shape : vector_int32)
    (z : Option (List ℚ × List Nat)) (p q : vector_float32 × ℚ) :
    grid_step start step shape (grid_step start step shape z p) q
      = grid_step start step shape (grid_step start step shape z q) p := by
  cases z with
  | none => rfl
  | some g =>
    simp only [grid_step, Option.some_bind]
    cases ha : point_action start step shape p.1 with
    | skip c1 =>
      cases hb : point_action start step shape q.1 with
      | skip c2 => simp [Action.run, Except.toOption]
      | add c2 o2 =>
        simp only [Action.run, Except.toOption, Option.some_bind]
        cases accumulate o2 (some q.2) g <;> simp
      | fault e => simp [Action.run, Except.toOption]
    | add c1 o1 =>
      cases hb : point_action start step shape q.1 with
      | skip c2 =>
        simp only [Action.run, Except.toOption, Option.some_bind]
        cases accumulate o1 (some p.2) g <;> simp
      | add c2 o2 =>
        simp only [Action.run]
        exact accumulate_comm o1 o2 p.2 q.2 g
      | fault e =>
        simp only [Action.run, Except.toOption, Option.none_bind]
        cases accumulate o1 (some p.2) g <;> simp
    | fault e =>
      cases hb : point_action start step shape q.1 with
      | skip c2 => simp [Action.run, Except.toOption]
      | add c2 o2 =>
        simp only [Action.run, Except.toOption, Option.none_bind]
        cases accumulate o2 (some q.2) g <;> simp
      | fault e2 => simp [Action.run, Except.toOption]

/-- The grids the traversal ends with are the fold of `grid_step`. -/
theorem run_points_grids (start step : vector_float32) (shape : vector_int32) :
    ∀ (l : List (vector_float32 × ℚ)) (z : Option (List ℚ × List Nat)),
      (z.bind fun g =>
          (run_points start step shape (l.map (fun p => (p.1, some p.2))) g).toOption.map
            (fun r => r.2))
        = l.foldl (grid_step start step shape) z := by
  intro l
  induction l with
  | nil =>
    intro z
    cases z <;> simp [run_points, Except.toOption]
  | cons p rest ih =>
    intro z
    rw [List.foldl_cons, ← ih]
    cases z with
    | none => rfl
    | some g =>
      simp only [Option.some_bind, List.map_cons, run_points, grid_step]
      cases ha : (point_action start step shape p.1).run (some p.2) g with
      | error e => simp [Except.toOption]
      | ok g1 =>
        simp only [Except.toOption, Option.some_bind]
        cases run_points start step shape (rest.map (fun p => (p.1, some p.2))) g1 <;> simp

/-- The grids the call ends with, for a point set and weight array given as a
list of pairs. -/
theorem weighted_bin_3d_grids (l : List (vector_float32 × ℚ))
    (start stop step : vector_float32) (shape : vector_int32)
    (out : List ℚ) (count : List Nat) (hmax : l.length ≤ max_vectors) :
    (weighted_bin_3d
        ⟨l.map Prod.fst, l.map Prod.snd, start, stop, step, shape, out, count⟩).toOption.map
        Memory.grids
      = l.foldl (grid_step start step shape) (some (out, count)) := by
  rw [← run_points_grids, weighted_bin_3d_eq _ (by simpa using hmax)]
  simp only [Option.some_bind, Memory.grids]
  have hpairs := pairs_from_eq_zip (l.map Prod.snd) (l.map Prod.fst) 0 (by simp)
  rw [List.drop_zero, ← List.zip_of_prod rfl rfl] at hpairs
  rw [hpairs]
  cases run_points start step shape (l.map (fun p => (p.1, some p.2))) (out, count) <;>
    simp [Except.toOption, Memory.grids]

/-- The grids a call on a point set counted as one point ends with. -/
theorem weighted_bin_3d_grids_of_one_point (m : Memory) (c : vector_float32)
    (h : (number_of_vectors m.coords.length).toNat = 1) (hc : m.coords[0]? = some c) :
    (weighted_bin_3d m).toOption.map Memory.grids
      = ((point_action m.start m.step m.shape c).run m.weights[0]? m.grids).toOption := by
  rw [weighted_bin_3d_of_one_point m h, weighted_bin_3d_body_eq 0 m c hc]
  cases (point_action m.start m.step m.shape c).run m.weights[0]? m.grids <;>
    simp [Except.toOption, Memory.grids]

/-- For at most `max_vectors` pairs, binning a permutation ends with the same
grids; either both calls complete or neither does. -/
theorem weighted_bin_3d_grids_of_perm (l l1 : List (vector_float32 × ℚ))
    (hperm : l.Perm l1) (hmax : l.length ≤ max_vectors)
    (start stop step : vector_float32) (shape : vector_int32)
    (out : List ℚ) (count : List Nat) :
    (weighted_bin_3d
          ⟨l.map Prod.fst, l.map Prod.snd, start, stop, step, shape, out, count⟩).toOption.map
          Memory.grids
        = (weighted_bin_3d
          ⟨l1.map Prod.fst, l1.map Prod.snd, start, stop, step, shape, out, count⟩).toOption.map
          Memory.grids := by
  rw [weighted_bin_3d_grids _ _ _ _ _ _ _ hmax,
    weighted_bin_3d_grids _ _ _ _ _ _ _ (by rw [← hperm.length_eq]; exact hmax)]
  exact hperm.foldl_eq' (fun x _ y _ z => grid_step_comm start step shape z x y) _

/-! ## Claims on the whole call -/

/-- Claim C3 as stated fails: on the scenario grid with step `(1/2, 1/2, 1/2)`
the call overwrites the point `(1/2, 1/2, 1/2)` with `(1, 1, 1)`. -/
theorem point_set_is_overwritten :
    weighted_bin_3d (scenario ⟨1 / 2, 1 / 2, 1 / 2⟩ [⟨1 / 2, 1 / 2, 1 / 2⟩] [3])
        = .ok { scenario ⟨1 / 2, 1 / 2, 1 / 2⟩ [⟨1 / 2, 1 / 2, 1 / 2⟩] [3] with
                coords := [⟨1, 1, 1⟩]
                out := [0, 0, 0, 0, 0, 0, 0, 3]
                count := [0, 0, 0, 0, 0, 0, 0, 1] }
      ∧ ([⟨1, 1, 1⟩] : List vector_float32) ≠ [⟨1 / 2, 1 / 2, 1 / 2⟩] := by
  have h7 : offset ⟨1, 1, 1⟩ ⟨2, 2, 2⟩ = 7 := by decide
  constructor
  · rw [weighted_bin_3d_of_one_point _ (by decide)]
    norm_num [weighted_bin_3d_body, scenario, vector_divide, vector_subtract, float_to_int,
      trunc, h7]
  · norm_num

/-- Claim C3, amended: for a point set of at most `max_vectors` points,
whenever the call completes, the weight array, start, stop, step and shape hold
the values they held before, and the point set holds `coord_after` of each
point: a point rejected by the lower test is unchanged, every other point is
overwritten with `(p - start)/step`.  On a well-formed memory the call does
complete. -/
theorem weighted_bin_3d_frame (m : Memory) (hmax : m.coords.length ≤ max_vectors) :
    (∀ m1, weighted_bin_3d m = .ok m1 →
        m1.weights = m.weights ∧ m1.start = m.start ∧ m1.stop = m.stop ∧ m1.step = m.step
          ∧ m1.shape = m.shape
          ∧ m1.coords = m.coords.map (coord_after m.start m.step))
      ∧ (well_formed m → ∃ m1, weighted_bin_3d m = .ok m1) := by
  refine ⟨fun m1 h => frame_of_completed_call m m1 hmax h, fun hwf => ?_⟩
  obtain ⟨m1, h, _⟩ := weighted_bin_3d_sums_of_well_formed m hwf
  exact ⟨m1, h⟩

/-- Claim C3 on the scenario grid with step `(1/2, 1/2, 1/2)` and the points
`(1/2, 1/2, 1/2)` and `(-1, 0, 0)`: the second is rejected by the lower test
and keeps its value. -/
theorem weighted_bin_3d_frame_witness :
    (([3, 5] : List ℚ) = (scenario ⟨1 / 2, 1 / 2, 1 / 2⟩
          [⟨1 / 2, 1 / 2, 1 / 2⟩, ⟨-1, 0, 0⟩] [3, 5]).weights
        ∧ (⟨0, 0, 0⟩ : vector_float32) = (scenario ⟨1 / 2, 1 / 2, 1 / 2⟩
          [⟨1 / 2, 1 / 2, 1 / 2⟩, ⟨-1, 0, 0⟩] [3, 5]).start
        ∧ (⟨2, 2, 2⟩ : vector_float32) = (scenario ⟨1 / 2, 1 / 2, 1 / 2⟩
          [⟨1 / 2, 1 / 2, 1 / 2⟩, ⟨-1, 0, 0⟩] [3, 5]).stop
        ∧ (⟨1 / 2, 1 / 2, 1 / 2⟩ : vector_float32) = (scenario ⟨1 / 2, 1 / 2, 1 / 2⟩
          [⟨1 / 2, 1 / 2, 1 / 2⟩, ⟨-1, 0, 0⟩] [3, 5]).step
        ∧ (⟨2, 2, 2⟩ : vector_int32) = (scenario ⟨1 / 2, 1 / 2, 1 / 2⟩
          [⟨1 / 2, 1 / 2, 1 / 2⟩, ⟨-1, 0, 0⟩] [3, 5]).shape
        ∧ ([⟨1, 1, 1⟩, ⟨-1, 0, 0⟩] : List vector_float32)
            = (scenario ⟨1 / 2, 1 / 2, 1 / 2⟩
                [⟨1 / 2, 1 / 2, 1 / 2⟩, ⟨-1, 0, 0⟩] [3, 5]).coords.map
              (coord_after ⟨0, 0, 0⟩ ⟨1 / 2, 1 / 2, 1 / 2⟩))
      ∧ ∃ m1, weighted_bin_3d (scenario ⟨1 / 2, 1 / 2, 1 / 2⟩
          [⟨1 / 2, 1 / 2, 1 / 2⟩, ⟨-1, 0, 0⟩] [3, 5]) = .ok m1 := by
  have h7 : offset ⟨1, 1, 1⟩ ⟨2, 2, 2⟩ = 7 := by decide
  have hrun : weighted_bin_3d (scenario ⟨1 / 2, 1 / 2, 1 / 2⟩
      [⟨1 / 2, 1 / 2, 1 / 2⟩, ⟨-1, 0, 0⟩] [3, 5])
      = .ok { scenario ⟨1 / 2, 1 / 2, 1 / 2⟩ [⟨1 / 2, 1 / 2, 1 / 2⟩, ⟨-1, 0, 0⟩] [3, 5] with
              coords := [⟨1, 1, 1⟩, ⟨-1, 0, 0⟩]
              out := [0, 0, 0, 0, 0, 0, 0, 3]
              count := [0, 0, 0, 0, 0, 0, 0, 1] } := by
    rw [weighted_bin_3d_of_two_points _ (by decide)]
    norm_num [weighted_bin_3d_body, scenario, vector_divide, vector_subtract, float_to_int,
      trunc, h7]
  have hmax : (scenario ⟨1 / 2, 1 / 2, 1 / 2⟩
      [⟨1 / 2, 1 / 2, 1 / 2⟩, ⟨-1, 0, 0⟩] [3, 5]).coords.length ≤ max_vectors := by decide
  have hwf : well_formed (scenario ⟨1 / 2, 1 / 2, 1 / 2⟩
      [⟨1 / 2, 1 / 2, 1 / 2⟩, ⟨-1, 0, 0⟩] [3, 5]) := by
    norm_num [well_formed, scenario, index_fits, below_start, trunc, max_vectors]
  exact ⟨(weighted_bin_3d_frame _ hmax).1 _ hrun, (weighted_bin_3d_frame _ hmax).2 hwf⟩

/-- Claim C5 as stated fails: on the zeroed scenario grid with the nonzero step
`(-1, 1, 1)`, one point `(1, 0, 0)` and one weight, the point passes both
bounds tests but the call does not complete: there are no final grids whose
cells could be summed. -/
theorem no_sums_for_negative_step :
    ((-1 : ℚ) ≠ 0 ∧ (1 : ℚ) ≠ 0) ∧ (0 : Int) < 2
      ∧ in_grid ⟨0, 0, 0⟩ ⟨-1, 1, 1⟩ ⟨2, 2, 2⟩ ⟨1, 0, 0⟩
      ∧ (scenario ⟨-1, 1, 1⟩ [⟨1, 0, 0⟩] [3]).coords.length
          = (scenario ⟨-1, 1, 1⟩ [⟨1, 0, 0⟩] [3]).weights.length
      ∧ (scenario ⟨-1, 1, 1⟩ [⟨1, 0, 0⟩] [3]).out = List.replicate (2 * 2 * 2) 0
      ∧ (scenario ⟨-1, 1, 1⟩ [⟨1, 0, 0⟩] [3]).count = List.replicate (2 * 2 * 2) 0
      ∧ weighted_bin_3d (scenario ⟨-1, 1, 1⟩ [⟨1, 0, 0⟩] [3]) = .error .outOfBounds := by
  have h : offset ⟨-1, 0, 0⟩ ⟨2, 2, 2⟩ = 18446744073709551612 := by decide
  refine ⟨by norm_num, by decide, by norm_num [in_grid, below_start, trunc], rfl, rfl, rfl, ?_⟩
  rw [weighted_bin_3d_of_one_point _ (by decide)]
  norm_num [weighted_bin_3d_body, scenario, vector_divide, vector_subtract, float_to_int,
    trunc, h]

/-- Claim C5, amended: on a well-formed memory (positive step, positive shape,
fewer than `2^31` cells, grids of `shape.x*shape.y*shape.z` cells, as many
weights as points, every truncated index representable in `int`, at most
`max_vectors` points) with zeroed grids, the call completes, the sum of the
count cells is the number of points that pass both bounds tests and the sum of
the accumulator cells is the sum of their weights. -/
theorem weighted_bin_3d_additive (m : Memory) (hwf : well_formed m)
    (hzero_out : ∀ v ∈ m.out, v = 0) (hzero_count : ∀ v ∈ m.count, v = 0) :
    ∃ m1, weighted_bin_3d m = .ok m1
      ∧ m1.count.sum
          = ((m.coords.zip m.weights).filter
              (fun p => in_grid m.start m.step m.shape p.1)).length
      ∧ m1.out.sum
          = (((m.coords.zip m.weights).filter
              (fun p => in_grid m.start m.step m.shape p.1)).map Prod.snd).sum := by
  obtain ⟨m1, h, hs, hc⟩ := weighted_bin_3d_sums_of_well_formed m hwf
  have z1 : m.out.sum = 0 := List.sum_eq_zero hzero_out
  have z2 : m.count.sum = 0 := List.sum_eq_zero hzero_count
  rw [z1, zero_add] at hs
  rw [z2, zero_add] at hc
  have hmax : m.coords.length ≤ max_vectors := hwf.2.2.2.2.2.2.2
  have hN : ((m.coords.zip m.weights).filter
      (fun p => in_grid m.start m.step m.shape p.1)).length < 2 ^ 32 := by
    have h1 := List.length_filter_le (fun p => decide (in_grid m.start m.step m.shape p.1))
      (m.coords.zip m.weights)
    have h2 : (m.coords.zip m.weights).length ≤ m.coords.length := by
      rw [List.length_zip]
      exact Nat.min_le_left _ _
    unfold max_vectors at hmax
    omega
  exact ⟨m1, h, hc hN, hs⟩

/-- Claim C5 on the scenario grid with unit step and four points, of which
the first and the third pass both tests: the counts sum to `2` and the
accumulator to `3 + 5`. -/
theorem weighted_bin_3d_additive_witness :
    ((([(⟨1 / 2, 1 / 2, 1 / 2⟩ : vector_float32), ⟨-1, 0, 0⟩,
          ⟨19 / 10, 19 / 10, 19 / 10⟩, ⟨5, 0, 0⟩].zip ([3, 4, 5, 6] : List ℚ)).filter
        (fun p => in_grid ⟨0, 0, 0⟩ ⟨1, 1, 1⟩ ⟨2, 2, 2⟩ p.1))
        = [(⟨1 / 2, 1 / 2, 1 / 2⟩, 3), (⟨19 / 10, 19 / 10, 19 / 10⟩, 5)])
      ∧ ∃ m1, weighted_bin_3d (scenario ⟨1, 1, 1⟩
          [⟨1 / 2, 1 / 2, 1 / 2⟩, ⟨-1, 0, 0⟩, ⟨19 / 10, 19 / 10, 19 / 10⟩, ⟨5, 0, 0⟩]
          [3, 4, 5, 6]) = .ok m1
        ∧ m1.count.sum = 2 ∧ m1.out.sum = 3 + 5 := by
  have hfilter : ((([(⟨1 / 2, 1 / 2, 1 / 2⟩ : vector_float32), ⟨-1, 0, 0⟩,
        ⟨19 / 10, 19 / 10, 19 / 10⟩, ⟨5, 0, 0⟩].zip ([3, 4, 5, 6] : List ℚ)).filter
      (fun p => in_grid ⟨0, 0, 0⟩ ⟨1, 1, 1⟩ ⟨2, 2, 2⟩ p.1))
      = [(⟨1 / 2, 1 / 2, 1 / 2⟩, 3), (⟨19 / 10, 19 / 10, 19 / 10⟩, 5)]) := by
    norm_num [List.filter, in_grid, below_start, trunc]
  obtain ⟨m1, h, hc, hs⟩ := weighted_bin_3d_additive (scenario ⟨1, 1, 1⟩
      [⟨1 / 2, 1 / 2, 1 / 2⟩, ⟨-1, 0, 0⟩, ⟨19 / 10, 19 / 10, 19 / 10⟩, ⟨5, 0, 0⟩]
      [3, 4, 5, 6])
    (by norm_num [well_formed, scenario, index_fits, below_start, trunc, max_vectors])
    (by norm_num [scenario]) (by norm_num [scenario])
  refine ⟨hfilter, m1, h, ?_, ?_⟩
  · rw [hc]
    show ((([(⟨1 / 2, 1 / 2, 1 / 2⟩ : vector_float32), ⟨-1, 0, 0⟩,
        ⟨19 / 10, 19 / 10, 19 / 10⟩, ⟨5, 0, 0⟩].zip ([3, 4, 5, 6] : List ℚ)).filter
      (fun p => in_grid ⟨0, 0, 0⟩ ⟨1, 1, 1⟩ ⟨2, 2, 2⟩ p.1))).length = 2
    rw [hfilter]
    rfl
  · rw [hs]
    show (((([(⟨1 / 2, 1 / 2, 1 / 2⟩ : vector_float32), ⟨-1, 0, 0⟩,
        ⟨19 / 10, 19 / 10, 19 / 10⟩, ⟨5, 0, 0⟩].zip ([3, 4, 5, 6] : List ℚ)).filter
      (fun p => in_grid ⟨0, 0, 0⟩ ⟨1, 1, 1⟩ ⟨2, 2, 2⟩ p.1))).map Prod.snd).sum = 3 + 5
    rw [hfilter]
    norm_num

theorem rejected_tail_length : rejected_tail.length = 4294967295 := by
  unfold rejected_tail
  exact List.length_replicate _ _

/-- With any `2^32 - 1` further pairs behind them, the call bins only the
first of the pairs `((1/2, 1/2, 1/2), 3)` and `((-1, 0, 0), 1)`. -/
theorem first_point_only (t : List (vector_float32 × ℚ)) (ht : t.length = 4294967295) :
    (((⟨1 / 2, 1 / 2, 1 / 2⟩, 3) :: (⟨-1, 0, 0⟩, 1) :: t).Perm
        ((⟨-1, 0, 0⟩, 1) :: (⟨1 / 2, 1 / 2, 1 / 2⟩, 3) :: t))
      ∧ ((⟨1 / 2, 1 / 2, 1 / 2⟩, 3) :: (⟨-1, 0, 0⟩, 1) :: t).length = 4294967297
      ∧ (weighted_bin_3d
          ⟨(((⟨1 / 2, 1 / 2, 1 / 2⟩, 3) :: (⟨-1, 0, 0⟩, 1) :: t).map Prod.fst),
            (((⟨1 / 2, 1 / 2, 1 / 2⟩, 3) :: (⟨-1, 0, 0⟩, 1) :: t).map Prod.snd),
            ⟨0, 0, 0⟩, ⟨2, 2, 2⟩, ⟨1, 1, 1⟩, ⟨2, 2, 2⟩,
            [0, 0, 0, 0, 0, 0, 0, 0], [0, 0, 0, 0, 0, 0, 0, 0]⟩).toOption.map Memory.grids
        = some ([3, 0, 0, 0, 0, 0, 0, 0], [1, 0, 0, 0, 0, 0, 0, 0])
      ∧ (weighted_bin_3d
          ⟨(((⟨-1, 0, 0⟩, 1) :: (⟨1 / 2, 1 / 2, 1 / 2⟩, 3) :: t).map Prod.fst),
            (((⟨-1, 0, 0⟩, 1) :: (⟨1 / 2, 1 / 2, 1 / 2⟩, 3) :: t).map Prod.snd),
            ⟨0, 0, 0⟩, ⟨2, 2, 2⟩, ⟨1, 1, 1⟩, ⟨2, 2, 2⟩,
            [0, 0, 0, 0, 0, 0, 0, 0], [0, 0, 0, 0, 0, 0, 0, 0]⟩).toOption.map Memory.grids
        = some ([0, 0, 0, 0, 0, 0, 0, 0], [0, 0, 0, 0, 0, 0, 0, 0]) := by
  have h0 : offset ⟨0, 0, 0⟩ ⟨2, 2, 2⟩ = 0 := by decide
  have hn : (number_of_vectors (4294967295 + 1 + 1)).toNat = 1 := by decide
  have hacc : (accumulate 0 (some 3)
      ([0, 0, 0, 0, 0, 0, 0, 0], [0, 0, 0, 0, 0, 0, 0, 0])).toOption
      = some ([3, 0, 0, 0, 0, 0, 0, 0], [1, 0, 0, 0, 0, 0, 0, 0]) := by
    norm_num [accumulate, Except.toOption]
  refine ⟨List.Perm.swap _ _ _, ?_, ?_, ?_⟩
  · simp only [List.length_cons, ht]
  · have hp : point_action ⟨0, 0, 0⟩ ⟨1, 1, 1⟩ ⟨2, 2, 2⟩ ⟨1 / 2, 1 / 2, 1 / 2⟩
        = .add ⟨1 / 2, 1 / 2, 1 / 2⟩ 0 := by
      norm_num [point_action, vector_divide, vector_subtract, float_to_int, trunc, h0]
    simp only [List.map_cons]
    rw [weighted_bin_3d_grids_of_one_point _ ⟨1 / 2, 1 / 2, 1 / 2⟩
      (by simp only [List.length_cons, List.length_map, ht]; exact hn)
      List.getElem?_cons_zero]
    show ((point_action ⟨0, 0, 0⟩ ⟨1, 1, 1⟩ ⟨2, 2, 2⟩ ⟨1 / 2, 1 / 2, 1 / 2⟩).run (some 3)
      ([0, 0, 0, 0, 0, 0, 0, 0], [0, 0, 0, 0, 0, 0, 0, 0])).toOption = _
    rw [hp]
    exact hacc
  · have hp : point_action ⟨0, 0, 0⟩ ⟨1, 1, 1⟩ ⟨2, 2, 2⟩ ⟨-1, 0, 0⟩ = .skip ⟨-1, 0, 0⟩ := by
      norm_num [point_action]
    simp only [List.map_cons]
    rw [weighted_bin_3d_grids_of_one_point _ ⟨-1, 0, 0⟩
      (by simp only [List.length_cons, List.length_map, ht]; exact hn)
      List.getElem?_cons_zero]
    show ((point_action ⟨0, 0, 0⟩ ⟨1, 1, 1⟩ ⟨2, 2, 2⟩ ⟨-1, 0, 0⟩).run (some 1)
      ([0, 0, 0, 0, 0, 0, 0, 0], [0, 0, 0, 0, 0, 0, 0, 0])).toOption = _
    rw [hp]
    rfl

/-- Claim C6, evaluated on the code: `2^32 + 1` (point, weight) pairs on the
zeroed scenario grid with unit step, the first `((1/2, 1/2, 1/2), 3)`, all the
others `((-1, 0, 0), 1)`, and the permutation that exchanges the first two
pairs.  Line 108 converts the length `2^32 + 1` to the `int` `1`, so each call
bins its first point only: the first call ends with `3` in accumulator cell `0`
and `1` in count cell `0`, the second with the zeroed grids. -/
theorem order_matters_beyond_int_length :
    number_of_vectors 4294967297 = 1
      ∧ (((⟨1 / 2, 1 / 2, 1 / 2⟩, 3) :: (⟨-1, 0, 0⟩, 1) :: rejected_tail).Perm
        ((⟨-1, 0, 0⟩, 1) :: (⟨1 / 2, 1 / 2, 1 / 2⟩, 3) :: rejected_tail))
      ∧ ((⟨1 / 2, 1 / 2, 1 / 2⟩, 3) :: (⟨-1, 0, 0⟩, 1) :: rejected_tail).length = 4294967297
      ∧ (weighted_bin_3d
          ⟨(((⟨1 / 2, 1 / 2, 1 / 2⟩, 3) :: (⟨-1, 0, 0⟩, 1) :: rejected_tail).map Prod.fst),
            (((⟨1 / 2, 1 / 2, 1 / 2⟩, 3) :: (⟨-1, 0, 0⟩, 1) :: rejected_tail).map Prod.snd),
            ⟨0, 0, 0⟩, ⟨2, 2, 2⟩, ⟨1, 1, 1⟩, ⟨2, 2, 2⟩,
            [0, 0, 0, 0, 0, 0, 0, 0], [0, 0, 0, 0, 0, 0, 0, 0]⟩).toOption.map Memory.grids
        = some ([3, 0, 0, 0, 0, 0, 0, 0], [1, 0, 0, 0, 0, 0, 0, 0])
      ∧ (weighted_bin_3d
          ⟨(((⟨-1, 0, 0⟩, 1) :: (⟨1 / 2, 1 / 2, 1 / 2⟩, 3) :: rejected_tail).map Prod.fst),
            (((⟨-1, 0, 0⟩, 1) :: (⟨1 / 2, 1 / 2, 1 / 2⟩, 3) :: rejected_tail).map Prod.snd),
            ⟨0, 0, 0⟩, ⟨2, 2, 2⟩, ⟨1, 1, 1⟩, ⟨2, 2, 2⟩,
            [0, 0, 0, 0, 0, 0, 0, 0], [0, 0, 0, 0, 0, 0, 0, 0]⟩).toOption.map Memory.grids
        = some ([0, 0, 0, 0, 0, 0, 0, 0], [0, 0, 0, 0, 0, 0, 0, 0]) :=
  ⟨by decide, first_point_only rejected_tail rejected_tail_length⟩

/-! ## The element-wise adds -/

theorem simple_uint32_add_loop_eq (to_add : List Nat) (n : Nat) :
    ∀ (i : Nat) (out : List Nat), i + n = out.length → out.length ≤ to_add.length →
      simple_uint32_add_loop n i out to_add
        = .ok (out.take i
            ++ List.zipWith (fun a b => (a + b) % 2 ^ 32) (out.drop i) (to_add.drop i)) := by
  induction n with
  | zero =>
    intro i out h _
    have hi : i = out.length := by omega
    subst hi
    simp [simple_uint32_add_loop]
  | succ n ih =>
    intro i out h hle
    have h1 : i < out.length := by omega
    have h2 : i < to_add.length := by omega
    rw [simple_uint32_add_loop, List.getElem?_eq_getElem h1, List.getElem?_eq_getElem h2]
    simp only
    rw [ih (i + 1) _ (by simp only [List.length_set]; omega)
      (by simp only [List.length_set]; omega)]
    rw [take_succ_set _ _ _ h1, List.drop_set_of_lt _ _ (Nat.lt_succ_self i),
      List.drop_eq_getElem_cons h1, List.drop_eq_getElem_cons h2]
    simp only [List.zipWith_cons_cons, List.append_assoc, List.singleton_append]

theorem simple_float_add_loop_eq (to_add : List ℚ) (n : Nat) :
    ∀ (i : Nat) (out : List ℚ), i + n = out.length → out.length ≤ to_add.length →
      simple_float_add_loop n i out to_add
        = .ok (out.take i ++ List.zipWith (fun a b => a + b) (out.drop i) (to_add.drop i)) := by
  induction n with
  | zero =>
    intro i out h _
    have hi : i = out.length := by omega
    subst hi
    simp [simple_float_add_loop]
  | succ n ih =>
    intro i out h hle
    have h1 : i < out.length := by omega
    have h2 : i < to_add.length := by omega
    rw [simple_float_add_loop, List.getElem?_eq_getElem h1, List.getElem?_eq_getElem h2]
    simp only
    rw [ih (i + 1) _ (by simp only [List.length_set]; omega)
      (by simp only [List.length_set]; omega)]
    rw [take_succ_set _ _ _ h1, List.drop_set_of_lt _ _ (Nat.lt_succ_self i),
      List.drop_eq_getElem_cons h1, List.drop_eq_getElem_cons h2]
    simp only [List.zipWith_cons_cons, List.append_assoc, List.singleton_append]

theorem simple_uint32_add_eq (out to_add : List Nat) (h : out.length ≤ to_add.length) :
    simple_uint32_add out to_add
      = .ok (List.zipWith (fun a b => (a + b) % 2 ^ 32) out to_add) := by
  unfold simple_uint32_add
  rw [simple_uint32_add_loop_eq to_add out.length 0 out (by omega) h]
  simp

theorem simple_float_add_eq (out to_add : List ℚ) (h : out.length ≤ to_add.length) :
    simple_float_add out to_add = .ok (List.zipWith (fun a b => a + b) out to_add) := by
  unfold simple_float_add
  rw [simple_float_add_loop_eq to_add out.length 0 out (by omega) h]
  simp

theorem zipWith_congr_of_mem {α β γ : Type} (f g : α → β → γ) :
    ∀ (l1 : List α) (l2 : List β), (∀ p ∈ l1.zip l2, f p.1 p.2 = g p.1 p.2) →
      List.zipWith f l1 l2 = List.zipWith g l1 l2 := by
  intro l1
  induction l1 with
  | nil => intro l2 _; simp
  | cons a t ih =>
    intro l2 h
    cases l2 with
    | nil => simp
    | cons b u =>
      simp only [List.zipWith_cons_cons, List.zip_cons_cons, List.mem_cons] at h ⊢
      rw [h (a, b) (Or.inl rfl), ih u (fun p hp => h p (Or.inr hp))]

theorem zipWith_replicate_right {α β : Type} (f : α → β → α) (z : β) :
    ∀ (l : List α), (∀ a ∈ l, f a z = a) →
      List.zipWith f l (List.replicate l.length z) = l := by
  intro l
  induction l with
  | nil => intro _; rfl
  | cons a t ih =>
    intro h
    simp only [List.length_cons, List.replicate_succ, List.zipWith_cons_cons]
    rw [h a (List.mem_cons_self _ _), ih (fun b hb => h b (List.mem_cons_of_mem _ hb))]

theorem zipWith_twice {α β : Type} (f : α → β → α) (g : β → β) :
    ∀ (l1 : List α) (l2 : List β), (∀ p ∈ l1.zip l2, f (f p.1 p.2) p.2 = f p.1 (g p.2)) →
      List.zipWith f (List.zipWith f l1 l2) l2 = List.zipWith f l1 (l2.map g) := by
  intro l1
  induction l1 with
  | nil => intro l2 _; simp
  | cons a t ih =>
    intro l2 h
    cases l2 with
    | nil => simp
    | cons b u =>
      simp only [List.zipWith_cons_cons, List.zip_cons_cons, List.mem_cons, List.map_cons] at h ⊢
      rw [h (a, b) (Or.inl rfl), ih u (fun p hp => h p (Or.inr hp))]

/-- Claim C8: for equal-length buffers, `simple_uint32_add` sets each `A[i]` to
the `uint32_t` sum of `A[i]` and `B[i]`, which is `A[i] + B[i]` when that does
not overflow; adding an all-zero buffer leaves `A` unchanged; adding `B` twice
gives the buffer that adding `2·B` once gives when no `A[i] + 2·B[i]`
overflows; and `simple_float_add` satisfies the same three facts with exact
sums. -/
theorem elementwise_add_identities (A B : List Nat) (X Y : List ℚ)
    (hlen : A.length = B.length) (hlenf : X.length = Y.length)
    (hA : ∀ a ∈ A, a < 2 ^ 32) :
    simple_uint32_add A B = .ok (List.zipWith (fun a b => (a + b) % 2 ^ 32) A B)
      ∧ ((∀ p ∈ A.zip B, p.1 + p.2 < 2 ^ 32) →
          simple_uint32_add A B = .ok (List.zipWith (fun a b => a + b) A B))
      ∧ simple_uint32_add A (List.replicate A.length 0) = .ok A
      ∧ ((∀ p ∈ A.zip B, p.1 + 2 * p.2 < 2 ^ 32) →
          ∃ A1, simple_uint32_add A B = .ok A1
            ∧ simple_uint32_add A1 B = simple_uint32_add A (B.map (fun b => 2 * b)))
      ∧ simple_float_add X Y = .ok (List.zipWith (fun a b => a + b) X Y)
      ∧ simple_float_add X (List.replicate X.length 0) = .ok X
      ∧ (∃ X1, simple_float_add X Y = .ok X1
            ∧ simple_float_add X1 Y = simple_float_add X (Y.map (fun b => 2 * b))) := by
  have e1 := simple_uint32_add_eq A B (by omega)
  have f1 := simple_float_add_eq X Y (by omega)
  refine ⟨e1, fun h => ?_, ?_, fun h => ⟨_, e1, ?_⟩, f1, ?_, ⟨_, f1, ?_⟩⟩
  · rw [e1]
    congr 1
    exact zipWith_congr_of_mem _ _ A B (fun p hp => Nat.mod_eq_of_lt (h p hp))
  · rw [simple_uint32_add_eq A _ (by simp)]
    congr 1
    exact zipWith_replicate_right _ 0 A (fun a ha => by
      simp only [Nat.add_zero]
      exact Nat.mod_eq_of_lt (hA a ha))
  · rw [simple_uint32_add_eq _ B (by simp [hlen]), simple_uint32_add_eq A _ (by simp [hlen])]
    congr 1
    exact zipWith_twice _ _ A B (fun p _ => by omega)
  · rw [simple_float_add_eq X _ (by simp)]
    congr 1
    exact zipWith_replicate_right _ 0 X (fun a _ => by simp)
  · rw [simple_float_add_eq _ Y (by simp [hlenf]), simple_float_add_eq X _ (by simp [hlenf])]
    congr 1
    exact zipWith_twice _ _ X Y (fun p _ => by ring)

/-- Claim C8 on the buffers `[1, 2^32 - 1, 7]` and `[2, 0, 10]`, and on the
float buffers `[1/2, 3]` and `[1/4, -1]`. -/
theorem elementwise_add_identities_witness :
    simple_uint32_add [1, 4294967295, 7] [2, 0, 10]
        = .ok (List.zipWith (fun a b => (a + b) % 2 ^ 32) [1, 4294967295, 7] [2, 0, 10])
      ∧ simple_uint32_add [1, 4294967295, 7] [2, 0, 10]
          = .ok (List.zipWith (fun a b => a + b) [1, 4294967295, 7] [2, 0, 10])
      ∧ simple_uint32_add [1, 4294967295, 7] (List.replicate [1, 4294967295, 7].length 0)
          = .ok [1, 4294967295, 7]
      ∧ (∃ A1, simple_uint32_add [1, 4294967295, 7] [2, 0, 10] = .ok A1
            ∧ simple_uint32_add A1 [2, 0, 10]
              = simple_uint32_add [1, 4294967295, 7] ([2, 0, 10].map (fun b => 2 * b)))
      ∧ simple_float_add [1 / 2, 3] [1 / 4, -1]
          = .ok (List.zipWith (fun a b => a + b) [1 / 2, 3] [1 / 4, -1])
      ∧ simple_float_add [1 / 2, 3] (List.replicate [(1 / 2 : ℚ), 3].length 0) = .ok [1 / 2, 3]
      ∧ (∃ X1, simple_float_add [1 / 2, 3] [1 / 4, -1] = .ok X1
            ∧ simple_float_add X1 [1 / 4, -1]
              = simple_float_add [1 / 2, 3] ([1 / 4, -1].map (fun b => 2 * b))) :=
  have h := elementwise_add_identities [1, 4294967295, 7] [2, 0, 10] [1 / 2, 3] [1 / 4, -1]
    rfl rfl (by decide)
  ⟨h.1, h.2.1 (by decide), h.2.2.1, h.2.2.2.1 (by decide), h.2.2.2.2⟩

/-! ## The linear map -/

theorem to_vec_of_vec (u : Fin 3 → ℚ) : to_vec (of_vec u) = u := by
  funext k
  fin_cases k <;> rfl

theorem of_vec_to_vec (v : vector_float32) : of_vec (to_vec v) = v := rfl

theorem mat_vec_eq (matrix : Fin 9 → ℚ) (v : vector_float32) :
    mat_vec matrix v
      = ⟨matrix 0 * v.x + matrix 1 * v.y + matrix 2 * v.z,
         matrix 3 * v.x + matrix 4 * v.y + matrix 5 * v.z,
         matrix 6 * v.x + matrix 7 * v.y + matrix 8 * v.z⟩ := by
  simp [mat_vec, of_vec, to_vec, to_matrix, Matrix.mulVec, Matrix.dotProduct,
    Fin.sum_univ_three, add_assoc]

theorem linear_map_loop_eq (matrix : Fin 9 → ℚ) (n : Nat) :
    ∀ (i : Nat) (vector_array : List vector_float32), i + n = vector_array.length →
      i + n ≤ max_vectors →
      linear_map_loop n i vector_array matrix
        = .ok (vector_array.take i ++ (vector_array.drop i).map (mat_vec matrix)) := by
  induction n with
  | zero =>
    intro i arr h _
    have hi : i = arr.length := by omega
    subst hi
    simp [linear_map_loop]
  | succ n ih =>
    intro i arr h hmax
    have h1 : i < arr.length := by omega
    rw [linear_map_loop, if_pos (counter_product_fits i (by omega)),
      List.getElem?_eq_getElem h1]
    simp only
    rw [ih (i + 1) _ (by simp only [List.length_set]; omega) (by omega)]
    rw [take_succ_set _ _ _ h1, List.drop_set_of_lt _ _ (Nat.lt_succ_self i),
      List.drop_eq_getElem_cons h1, ← mat_vec_eq]
    simp only [List.map_cons, List.append_assoc, List.singleton_append]

/-- For at most `max_vectors` vectors, `linear_map` maps every vector. -/
theorem linear_map_eq (vector_array : List vector_float32) (matrix : Fin 9 → ℚ)
    (hmax : vector_array.length ≤ max_vectors) :
    linear_map vector_array matrix = .ok (vector_array.map (mat_vec matrix)) := by
  unfold linear_map
  rw [number_of_vectors_of_fits _ hmax,
    linear_map_loop_eq matrix _ 0 vector_array (by omega) (by omega)]
  simp

/-- A call on an array that `number_of_vectors` counts as empty maps
nothing. -/
theorem linear_map_of_no_iteration (vector_array : List vector_float32) (matrix : Fin 9 → ℚ)
    (h : (number_of_vectors vector_array.length).toNat = 0) :
    linear_map vector_array matrix = .ok vector_array := by
  unfold linear_map
  rw [h]
  rfl

theorem vec9_0 (a b c d e f g h k : ℚ) : (![a, b, c, d, e, f, g, h, k] : Fin 9 → ℚ) 0 = a := rfl

theorem vec9_1 (a b c d e f g h k : ℚ) : (![a, b, c, d, e, f, g, h, k] : Fin 9 → ℚ) 1 = b := rfl

theorem vec9_2 (a b c d e f g h k : ℚ) : (![a, b, c, d, e, f, g, h, k] : Fin 9 → ℚ) 2 = c := rfl

theorem vec9_3 (a b c d e f g h k : ℚ) : (![a, b, c, d, e, f, g, h, k] : Fin 9 → ℚ) 3 = d := rfl

theorem vec9_4 (a b c d e f g h k : ℚ) : (![a, b, c, d, e, f, g, h, k] : Fin 9 → ℚ) 4 = e := rfl

theorem vec9_5 (a b c d e f g h k : ℚ) : (![a, b, c, d, e, f, g, h, k] : Fin 9 → ℚ) 5 = f := rfl

theorem vec9_6 (a b c d e f g h k : ℚ) : (![a, b, c, d, e, f, g, h, k] : Fin 9 → ℚ) 6 = g := rfl

theorem vec9_7 (a b c d e f g h k : ℚ) : (![a, b, c, d, e, f, g, h, k] : Fin 9 → ℚ) 7 = h := rfl

theorem vec9_8 (a b c d e f g h k : ℚ) : (![a, b, c, d, e, f, g, h, k] : Fin 9 → ℚ) 8 = k := rfl

theorem to_matrix_cons (a b c d e f g h k : ℚ) :
    to_matrix ![a, b, c, d, e, f, g, h, k] = Matrix.of ![![a, b, c], ![d, e, f], ![g, h, k]] :=
  rfl

theorem to_matrix_identity : to_matrix identity_matrix = 1 := by
  ext i j
  fin_cases i <;> fin_cases j <;> simp [to_matrix, identity_matrix] <;> rfl

/-- For at most `max_vectors` vectors: `linear_map` replaces each vector `v`
by `M·v`, computed from the three original components; when `Minv·M = I`,
mapping by `M` and then by `Minv` restores every vector; and mapping by the
identity matrix leaves every vector unchanged. -/
theorem linear_map_round_trip_of_fits (vector_array : List vector_float32)
    (M Minv : Fin 9 → ℚ) (hmax : vector_array.length ≤ max_vectors)
    (hinv : to_matrix Minv * to_matrix M = 1) :
    linear_map vector_array M
        = .ok (vector_array.map
            (fun v => ⟨M 0 * v.x + M 1 * v.y + M 2 * v.z, M 3 * v.x + M 4 * v.y + M 5 * v.z,
              M 6 * v.x + M 7 * v.y + M 8 * v.z⟩))
      ∧ linear_map vector_array M = .ok (vector_array.map (mat_vec M))
      ∧ (∃ mapped, linear_map vector_array M = .ok mapped
          ∧ linear_map mapped Minv = .ok vector_array)
      ∧ linear_map vector_array identity_matrix = .ok vector_array := by
  have e := linear_map_eq vector_array M hmax
  refine ⟨?_, e, ⟨_, e, ?_⟩, ?_⟩
  · rw [e]
    refine congrArg Except.ok ?_
    exact List.map_congr_left (fun v _ => mat_vec_eq M v)
  · rw [linear_map_eq _ _ (by simpa using hmax), List.map_map]
    refine congrArg Except.ok ?_
    conv_rhs => rw [← List.map_id vector_array]
    refine List.map_congr_left (fun v _ => ?_)
    simp only [Function.comp, mat_vec, to_vec_of_vec, Matrix.mulVec_mulVec, hinv,
      Matrix.one_mulVec, of_vec_to_vec, id]
  · rw [linear_map_eq _ _ hmax]
    refine congrArg Except.ok ?_
    conv_rhs => rw [← List.map_id vector_array]
    refine List.map_congr_left (fun v _ => ?_)
    simp only [mat_vec, to_matrix_identity, Matrix.one_mulVec, of_vec_to_vec, id]

theorem unit_vectors_length : unit_vectors.length = 2147483648 := by
  unfold unit_vectors
  exact List.length_replicate _ _

theorem unit_vectors_head : unit_vectors[0]? = some ⟨1, 0, 0⟩ := by
  unfold unit_vectors
  rw [List.getElem?_replicate, if_pos (by decide)]

/-- Claim C7, evaluated on the code: an array of `2^31` vectors `(1, 0, 0)` and
the matrix `2·I`.  Line 247 converts the length `2^31` to the `int` `-2^31`,
the loop condition `i < number_of_vectors` is false at `i = 0`, and the call
returns with no vector mapped: vector `0` is still `(1, 0, 0)`, not
`M·(1, 0, 0) = (2, 0, 0)`. -/
theorem nothing_mapped_beyond_int_length :
    number_of_vectors 2147483648 = -2147483648
      ∧ unit_vectors.length = 2147483648
      ∧ linear_map unit_vectors ![2, 0, 0, 0, 2, 0, 0, 0, 2] = .ok unit_vectors
      ∧ unit_vectors[0]? = some ⟨1, 0, 0⟩
      ∧ mat_vec ![2, 0, 0, 0, 2, 0, 0, 0, 2] ⟨1, 0, 0⟩ = ⟨2, 0, 0⟩
      ∧ (⟨2, 0, 0⟩ : vector_float32) ≠ ⟨1, 0, 0⟩ := by
  refine ⟨by decide, unit_vectors_length, ?_, unit_vectors_head, ?_, by norm_num⟩
  · exact linear_map_of_no_iteration _ _ (by rw [unit_vectors_length]; decide)
  · rw [mat_vec_eq]
    norm_num [vec9_0, vec9_1, vec9_2, vec9_3, vec9_4, vec9_5, vec9_6, vec9_7, vec9_8]

end MapperCUtils
